import Mathlib

/-!
Verification development for the `rcp-palette` CSS color parser
(`src/lib.rs`).  Rust strings are modelled as `List Char` (Unicode scalar
values); byte-level operations of the source (`str::len`, byte slicing,
`find`/`rfind` indices) are modelled through the UTF-8 byte size of each
character, so that panics caused by slicing off a character boundary, or by
`unwrap` on an exhausted `chars()` iterator, are represented explicitly by
the `ROutcome.panic` outcome.  Fallible numeric conversions return
`Option`/`Except` values mirroring `ParseIntError`.

The `hsl` branch of the source computes with IEEE-754 `f32`; here the
numeric part is modelled with exact rationals (`ℚ`), which is an
approximation of `f32` (it cannot represent `inf`/`nan`, and rounds
differently).  No theorem below depends on the numeric values produced by
the hsl branch; only the structural success/failure shape of `parse_hsl`
is ever used.
-/

namespace RcpPalette

/-- Unicode White_Space property, as used by Rust `char::is_whitespace`
(and hence `str::trim`). -/
def isWs (c : Char) : Bool :=
  decide ((9 ≤ c.toNat ∧ c.toNat ≤ 13) ∨ c.toNat = 32 ∨ c.toNat = 133 ∨
    c.toNat = 160 ∨ c.toNat = 5760 ∨ (8192 ≤ c.toNat ∧ c.toNat ≤ 8202) ∨
    c.toNat = 8232 ∨ c.toNat = 8233 ∨ c.toNat = 8239 ∨ c.toNat = 8287 ∨
    c.toNat = 12288)

/-- UTF-8 byte size of a Unicode scalar value (Rust `char::len_utf8`). -/
def utf8Len (c : Char) : Nat :=
  if c.toNat < 128 then 1
  else if c.toNat < 2048 then 2
  else if c.toNat < 65536 then 3
  else 4

/-- Byte length of a string (Rust `str::len`). -/
def byteLen (l : List Char) : Nat := (l.map utf8Len).sum

/-- Rust `char::to_ascii_lowercase`. -/
def asciiLowerChar (c : Char) : Char :=
  if 65 ≤ c.toNat ∧ c.toNat ≤ 90 then Char.ofNat (c.toNat + 32) else c

/-- Rust `str::to_ascii_lowercase`. -/
def asciiLower (l : List Char) : List Char := l.map asciiLowerChar

/-- Rust `str::trim_start`. -/
def trimLeft (l : List Char) : List Char := l.dropWhile (fun c => isWs c)

/-- Rust `str::trim_end`. -/
def trimRight (l : List Char) : List Char :=
  (l.reverse.dropWhile (fun c => isWs c)).reverse

/-- Rust `str::trim`. -/
def trim (l : List Char) : List Char := trimRight (trimLeft l)

/-- Decimal digit value (Rust `char::to_digit(10)`). -/
def decVal (c : Char) : Option Nat :=
  if 48 ≤ c.toNat ∧ c.toNat ≤ 57 then some (c.toNat - 48) else none

/-- Hexadecimal digit value (Rust `char::to_digit(16)`). -/
def hexVal (c : Char) : Option Nat :=
  if 48 ≤ c.toNat ∧ c.toNat ≤ 57 then some (c.toNat - 48)
  else if 97 ≤ c.toNat ∧ c.toNat ≤ 102 then some (c.toNat - 87)
  else if 65 ≤ c.toNat ∧ c.toNat ≤ 70 then some (c.toNat - 55)
  else none

/-- Does `p` start the list `l`? (Rust `str::starts_with`). -/
def startsWithL : List Char → List Char → Bool
  | [], _ => true
  | _ :: _, [] => false
  | a :: p, b :: l => a == b && startsWithL p l

/-- The `Color` struct of the source: three `u8` channels. -/
structure Color where
  r : Nat
  g : Nat
  b : Nat
deriving DecidableEq, Repr

/-- The kind carried by Rust `ParseIntError`. -/
inductive IntErrorKind where
  | empty
  | invalidDigit
  | posOverflow
  | negOverflow
deriving DecidableEq, Repr

/-- The `ColorParseError` enum of the source.  The source's
`MissingHashPrefix` variant is named `MissingHash` here (the full source
name is not available to this development); it is the same variant. -/
inductive ColorParseError where
  | InvalidLength (n : Nat)
  | ComponentParseError (s : List Char) (k : IntErrorKind)
  | MissingHash
  | UnsupportedFormat
  | RgbInvalidFormat
  | RgbComponentParseError (s : List Char)
  | RgbComponentOutOfRange (v : Int)
deriving DecidableEq, Repr

/-- Outcome of running `parse_color`: a normal `Result`, or a panic
(`unwrap` on `None`, or byte slicing off a character boundary). -/
inductive ROutcome where
  | panic
  | ok (c : Color)
  | err (e : ColorParseError)
deriving DecidableEq, Repr

/-- Digit-accumulation loop of `u8::from_str_radix(_, 16)`: digit validity
is checked first, then overflow past `u8::MAX`. -/
def u8Digits16 : Nat → List Char → Except IntErrorKind Nat
  | acc, [] => .ok acc
  | acc, c :: rest =>
    match hexVal c with
    | none => .error .invalidDigit
    | some d =>
      if 255 < acc * 16 + d then .error .posOverflow
      else u8Digits16 (acc * 16 + d) rest

/-- Rust `u8::from_str_radix(s, 16)`: empty input is `Empty`; a bare sign
is `InvalidDigit`; a leading `+` is accepted; `-` is not valid for an
unsigned type and fails at the digit loop. -/
def u8Radix16 (s : List Char) : Except IntErrorKind Nat :=
  match s with
  | [] => .error .empty
  | c :: rest =>
    if c = '+' ∨ c = '-' then
      if rest = [] then .error .invalidDigit
      else if c = '+' then u8Digits16 0 rest
      else u8Digits16 0 (c :: rest)
    else u8Digits16 0 (c :: rest)

/-- `parse_component` of the source: hex pair to `u8`, wrapping the
`ParseIntError` into `ComponentParseError` with the offending substring. -/
def parse_component (component : List Char) : Except ColorParseError Nat :=
  match u8Radix16 component with
  | .error k => .error (.ComponentParseError component k)
  | .ok v => .ok v

/-- Take exactly `n` bytes from the front; `none` when `n` is not a
character boundary or exceeds the string (a Rust slice panic). -/
def takeBytes : Nat → List Char → Option (List Char)
  | 0, _ => some []
  | _ + 1, [] => none
  | n + 1, c :: cs =>
    if utf8Len c ≤ n + 1 then
      match takeBytes (n + 1 - utf8Len c) cs with
      | none => none
      | some t => some (c :: t)
    else none

/-- Drop exactly `n` bytes from the front; `none` when `n` is not a
character boundary or exceeds the string. -/
def dropBytes : Nat → List Char → Option (List Char)
  | 0, l => some l
  | _ + 1, [] => none
  | n + 1, c :: cs =>
    if utf8Len c ≤ n + 1 then dropBytes (n + 1 - utf8Len c) cs else none

/-- Rust byte slice `&s[a..b]`; `none` models the slice panic. -/
def sliceBytes (a b : Nat) (l : List Char) : Option (List Char) :=
  (dropBytes a l).bind (fun t => takeBytes (b - a) t)

/-- The `6 =>` arm of the hex branch: three byte-slices `[0..2]`, `[2..4]`,
`[4..6]`, each parsed in sequence, each slice able to panic. -/
def hex6 (body : List Char) : ROutcome :=
  match sliceBytes 0 2 body with
  | none => .panic
  | some rs =>
    match parse_component rs with
    | .error e => .err e
    | .ok r =>
      match sliceBytes 2 4 body with
      | none => .panic
      | some gs =>
        match parse_component gs with
        | .error e => .err e
        | .ok g =>
          match sliceBytes 4 6 body with
          | none => .panic
          | some bs =>
            match parse_component bs with
            | .error e => .err e
            | .ok b => .ok ⟨r, g, b⟩

/-- The `3 =>` arm of the hex branch: three `chars().next().unwrap()`
calls (panicking when fewer than three characters are available), each
character duplicated into a 2-character pair and parsed in sequence. -/
def hex3 (body : List Char) : ROutcome :=
  match body with
  | c1 :: c2 :: c3 :: _ =>
    match parse_component [c1, c1] with
    | .error e => .err e
    | .ok r =>
      match parse_component [c2, c2] with
      | .error e => .err e
      | .ok g =>
        match parse_component [c3, c3] with
        | .error e => .err e
        | .ok b => .ok ⟨r, g, b⟩
  | _ => .panic

/-- `parse_named_color` of the source: ASCII-lowercase the name and match
it against the fixed table. -/
def parse_named_color (name : List Char) : Option Color :=
  let l := asciiLower name
  if l = ['b', 'l', 'a', 'c', 'k'] then some ⟨0, 0, 0⟩
  else if l = ['w', 'h', 'i', 't', 'e'] then some ⟨255, 255, 255⟩
  else if l = ['r', 'e', 'd'] then some ⟨255, 0, 0⟩
  else if l = ['g', 'r', 'e', 'e', 'n'] then some ⟨0, 128, 0⟩
  else if l = ['b', 'l', 'u', 'e'] then some ⟨0, 0, 255⟩
  else if l = ['y', 'e', 'l', 'l', 'o', 'w'] then some ⟨255, 255, 0⟩
  else if l = ['c', 'y', 'a', 'n'] then some ⟨0, 255, 255⟩
  else if l = ['m', 'a', 'g', 'e', 'n', 't', 'a'] then some ⟨255, 0, 255⟩
  else if l = ['g', 'r', 'a', 'y'] then some ⟨128, 128, 128⟩
  else if l = ['g', 'r', 'e', 'y'] then some ⟨128, 128, 128⟩
  else if l = ['r', 'e', 'b', 'e', 'c', 'c', 'a', 'p', 'u', 'r', 'p', 'l', 'e']
    then some ⟨102, 51, 153⟩
  else none

/-- Index (in characters; order-equivalent to the source's byte index) of
the first occurrence of `a` (Rust `str::find`). -/
def firstIdxOf (a : Char) : List Char → Option Nat
  | [] => none
  | c :: cs => if c = a then some 0 else (firstIdxOf a cs).map (· + 1)

/-- Index of the last occurrence of `a` (Rust `str::rfind`). -/
def lastIdxOf (a : Char) (l : List Char) : Option Nat :=
  (firstIdxOf a l.reverse).map (fun i => l.length - 1 - i)

/-- Rust `str::split(',')`: splitting the empty string yields one empty
piece; every separator produces a boundary. -/
def splitComma : List Char → List (List Char)
  | [] => [[]]
  | c :: rest =>
    if c = ',' then [] :: splitComma rest
    else
      match splitComma rest with
      | [] => [[c]]
      | p :: ps => (c :: p) :: ps

/-- Digit-accumulation loop of `i32::from_str`, positive and negative
accumulation with the `i32` overflow checks. -/
def i32Loop (pos : Bool) : Int → List Char → Option Int
  | acc, [] => some acc
  | acc, c :: rest =>
    match decVal c with
    | none => none
    | some d =>
      if pos then
        if 2147483647 < acc * 10 + d then none
        else i32Loop pos (acc * 10 + d) rest
      else
        if acc * 10 - d < -2147483648 then none
        else i32Loop pos (acc * 10 - d) rest

/-- Rust `str::parse::<i32>()`: optional `+`/`-` sign followed by decimal
digits; empty input or a bare sign fails. -/
def parseI32 : List Char → Option Int
  | [] => none
  | c :: rest =>
    if c = '+' ∨ c = '-' then
      if rest = [] then none
      else i32Loop (c = '+') 0 rest
    else i32Loop true 0 (c :: rest)

/-- The component loop of `parse_rgb`: exactly three trimmed pieces, each
parsed as `i32` and range-checked into `0..=255`, in source order (any
other piece count is `RgbInvalidFormat`). -/
def rgbFromParts : List (List Char) → Except ColorParseError Color
  | [p0, p1, p2] =>
    match parseI32 p0 with
    | none => .error (.RgbComponentParseError p0)
    | some v0 =>
      if v0 < 0 ∨ 255 < v0 then .error (.RgbComponentOutOfRange v0)
      else
        match parseI32 p1 with
        | none => .error (.RgbComponentParseError p1)
        | some v1 =>
          if v1 < 0 ∨ 255 < v1 then .error (.RgbComponentOutOfRange v1)
          else
            match parseI32 p2 with
            | none => .error (.RgbComponentParseError p2)
            | some v2 =>
              if v2 < 0 ∨ 255 < v2 then .error (.RgbComponentOutOfRange v2)
              else .ok ⟨v0.toNat, v1.toNat, v2.toNat⟩
  | _ => .error .RgbInvalidFormat

/-- `parse_rgb` of the source: first `(`, last `)`, non-degenerate
interior, split on `,`, trim each piece, then the component loop. -/
def parse_rgb (input : List Char) : Except ColorParseError Color :=
  match firstIdxOf '(' input with
  | none => .error .RgbInvalidFormat
  | some o =>
    match lastIdxOf ')' input with
    | none => .error .RgbInvalidFormat
    | some cl =>
      if cl ≤ o + 1 then .error .RgbInvalidFormat
      else rgbFromParts ((splitComma ((input.take cl).drop (o + 1))).map trim)

/-- Longest prefix of decimal digits, and the remainder. -/
def spanDigits : List Char → (List Char × List Char)
  | [] => ([], [])
  | c :: cs =>
    if (decVal c).isSome then
      let (d, r) := spanDigits cs
      (c :: d, r)
    else ([], c :: cs)

/-- Value of a list of decimal digits. -/
def digitsToNat (l : List Char) : Nat :=
  l.foldl (fun a c => a * 10 + (decVal c).getD 0) 0

/-- Exponent part after `e`/`E` of a float literal: optional sign and at
least one digit, nothing trailing. -/
def parseExpPart (l : List Char) : Option Int :=
  match l with
  | [] => none
  | c :: rest =>
    let (sgn, digs) : Int × List Char :=
      if c = '+' then (1, rest)
      else if c = '-' then (-1, rest)
      else (1, c :: rest)
    let (d, r) := spanDigits digs
    if d = [] ∨ r ≠ [] then none else some (sgn * (digitsToNat d : Int))

/-- Unsigned part of Rust `f32::from_str`: `digits [. digits] [e exp]`,
with at least one digit in the mantissa.  The value is an exact rational;
the special tokens `inf`/`infinity`/`nan` of the source have no rational
counterpart and are rejected here (no theorem depends on them). -/
def parseRatCore (l : List Char) : Option ℚ :=
  let (ip, r1) := spanDigits l
  let (fp, r2) :=
    match r1 with
    | '.' :: rest => spanDigits rest
    | _ => ([], r1)
  if ip = [] ∧ fp = [] then none
  else
    let mant : ℚ := (digitsToNat ip : ℚ) + (digitsToNat fp : ℚ) / ((10 : ℚ) ^ fp.length)
    match r2 with
    | [] => some mant
    | 'e' :: rest => (parseExpPart rest).map (fun e => mant * (10 : ℚ) ^ e)
    | 'E' :: rest => (parseExpPart rest).map (fun e => mant * (10 : ℚ) ^ e)
    | _ => none

/-- Rust `str::parse::<f32>()` modelled over ℚ: optional sign, then the
unsigned float grammar. -/
def parseRat (p : List Char) : Option ℚ :=
  match p with
  | [] => none
  | c :: rest =>
    if c = '+' then parseRatCore rest
    else if c = '-' then (parseRatCore rest).map (fun q => -q)
    else parseRatCore (c :: rest)

/-- Rust `str::strip_suffix('%')`. -/
def stripPct (p : List Char) : Option (List Char) :=
  match p.reverse with
  | '%' :: rest => some rest.reverse
  | _ => none

/-- Rust `f32::clamp` (for non-NaN arguments). -/
def clampQ (x lo hi : ℚ) : ℚ := max lo (min x hi)

/-- Rust `f32::round`: round half away from zero. -/
def rustRound (x : ℚ) : Int :=
  if 0 ≤ x then Int.floor (x + 1 / 2) else Int.ceil (x - 1 / 2)

/-- `(x * 255).round().clamp(0.0, 255.0) as u8` of the source. -/
def toChannel (x : ℚ) : Nat :=
  (max 0 (min 255 (rustRound (x * 255)))).toNat

/-- The inner `hue_to_rgb` helper of `parse_hsl`. -/
def hue2rgb (p q t0 : ℚ) : ℚ :=
  let t1 := if t0 < 0 then t0 + 1 else t0
  let t := if 1 < t1 then t1 - 1 else t1
  if t < 1 / 6 then p + (q - p) * 6 * t
  else if t < 1 / 2 then q
  else if t < 2 / 3 then p + (q - p) * (2 / 3 - t) * 6
  else p

/-- HSL→RGB conversion of `parse_hsl` (hue wrapped by `rem_euclid(360)`
and scaled into `[0,1)`, saturation/lightness divided by 100 and clamped),
in the exact-rational approximation of `f32`. -/
def hslToRgb (hdeg spct lpct : ℚ) : Color :=
  let h := (hdeg - 360 * (Rat.floor (hdeg / 360) : ℚ)) / 360
  let s := clampQ (spct / 100) 0 1
  let l := clampQ (lpct / 100) 0 1
  let q := if l < 1 / 2 then l * (1 + s) else l + s - l * s
  let p := 2 * l - q
  ⟨toChannel (hue2rgb p q (h + 1 / 3)),
   toChannel (hue2rgb p q h),
   toChannel (hue2rgb p q (h - 1 / 3))⟩

/-- `parse_hsl` of the source: same bracket/comma structure as
`parse_rgb` but failing with `UnsupportedFormat`; hue parsed as a real,
saturation and lightness must carry a `%` suffix. -/
def parse_hsl (input : List Char) : Except ColorParseError Color :=
  match firstIdxOf '(' input with
  | none => .error .UnsupportedFormat
  | some o =>
    match lastIdxOf ')' input with
    | none => .error .UnsupportedFormat
    | some cl =>
      if cl ≤ o + 1 then .error .UnsupportedFormat
      else
        let parts := (splitComma ((input.take cl).drop (o + 1))).map trim
        match parts with
        | [p0, p1, p2] =>
          match parseRat p0 with
          | none => .error .UnsupportedFormat
          | some hdeg =>
            match stripPct p1 with
            | none => .error .UnsupportedFormat
            | some sstr =>
              match stripPct p2 with
              | none => .error .UnsupportedFormat
              | some lstr =>
                match parseRat sstr with
                | none => .error .UnsupportedFormat
                | some spct =>
                  match parseRat lstr with
                  | none => .error .UnsupportedFormat
                  | some lpct => .ok (hslToRgb hdeg spct lpct)
        | _ => .error .UnsupportedFormat

/-- Lift a sub-parser `Result` into the panic-aware outcome. -/
def exceptToOutcome : Except ColorParseError Color → ROutcome
  | .error e => .err e
  | .ok c => .ok c

/-- Rust `str::strip_prefix('#')`. -/
def stripHash (l : List Char) : Option (List Char) :=
  match l with
  | c :: rest => if c = '#' then some rest else none
  | [] => none

/-- `parse_color` of the source: trim, try the named table, then the `#`
branch dispatched on the byte length of the body, then the
`rgb(`/`hsl(` prefixes on the ASCII-lowercased string, else the
`MissingHashPrefix` error. -/
def parse_color (input : List Char) : ROutcome :=
  let t := trim input
  match parse_named_color t with
  | some c => .ok c
  | none =>
    match stripHash t with
    | some body =>
      if byteLen body = 3 then hex3 body
      else if byteLen body = 6 then hex6 body
      else .err (.InvalidLength (byteLen body))
    | none =>
      if startsWithL ['r', 'g', 'b', '('] (asciiLower t) then
        exceptToOutcome (parse_rgb t)
      else if startsWithL ['h', 's', 'l', '('] (asciiLower t) then
        exceptToOutcome (parse_hsl t)
      else .err .MissingHash

/-- Did the parse produce a color? -/
def isOk : ROutcome → Bool
  | .ok _ => true
  | _ => false

/-- Value of a digit string under left-to-right accumulation (the value
`i32` parsing produces on an all-digit string). -/
def natValD (l : List Char) : Nat :=
  l.foldl (fun a c => a * 10 + (decVal c).getD 0) 0

/-- Is every character of `l` Unicode whitespace? -/
def allWs (l : List Char) : Prop := ∀ c ∈ l, isWs c = true

instance (l : List Char) : Decidable (allWs l) := List.decidableBAll _ l

/-- Is every character of `l` a decimal digit? -/
def allDigits (l : List Char) : Prop := ∀ c ∈ l, (decVal c).isSome = true

instance (l : List Char) : Decidable (allDigits l) := List.decidableBAll _ l

/-- Pair shapes accepted by base-16 `u8` parsing: two hex digits, or a
leading `+` sign followed by one hex digit. -/
def hexPairAccepted (a b : Char) : Bool :=
  ((hexVal a).isSome && (hexVal b).isSome) || (a == '+' && (hexVal b).isSome)

/-- Token shape `["+"|"-"] Digit+`: what `i32` parsing accepts, up to
range. -/
def isSignedDigits (p : List Char) : Bool :=
  match p with
  | [] => false
  | c :: rest =>
    if c = '+' ∨ c = '-' then
      !rest.isEmpty && rest.all (fun d => (decVal d).isSome)
    else (c :: rest).all (fun d => (decVal d).isSome)

/-! ### Character-level facts -/

lemma char_ne_of_toNat {c d : Char} (h : c.toNat ≠ d.toNat) : c ≠ d :=
  fun he => h (by rw [he])

lemma hexVal_bounds {c : Char} {v : Nat} (h : hexVal c = some v) :
    v ≤ 15 ∧ ((48 ≤ c.toNat ∧ c.toNat ≤ 57) ∨ (97 ≤ c.toNat ∧ c.toNat ≤ 102) ∨
      (65 ≤ c.toNat ∧ c.toNat ≤ 70)) := by
  unfold hexVal at h
  split_ifs at h with h1 h2 h3 <;> simp_all <;> omega

lemma hexVal_ascii {c : Char} {v : Nat} (h : hexVal c = some v) : c.toNat < 128 := by
  have := (hexVal_bounds h).2
  omega

lemma hexVal_le {c : Char} {v : Nat} (h : hexVal c = some v) : v ≤ 15 :=
  (hexVal_bounds h).1

lemma hexVal_ne_plus {c : Char} {v : Nat} (h : hexVal c = some v) : c ≠ '+' := by
  have := (hexVal_bounds h).2
  exact char_ne_of_toNat (by simpa using by omega)

lemma hexVal_ne_minus {c : Char} {v : Nat} (h : hexVal c = some v) : c ≠ '-' := by
  have := (hexVal_bounds h).2
  exact char_ne_of_toNat (by simpa using by omega)

lemma hexVal_ne_hash {c : Char} {v : Nat} (h : hexVal c = some v) : c ≠ '#' := by
  have := (hexVal_bounds h).2
  exact char_ne_of_toNat (by simpa using by omega)

lemma hexVal_notWs {c : Char} {v : Nat} (h : hexVal c = some v) : isWs c = false := by
  have := (hexVal_bounds h).2
  simp only [isWs, decide_eq_false_iff_not]
  omega

lemma decVal_bounds {c : Char} {d : Nat} (h : decVal c = some d) :
    d ≤ 9 ∧ 48 ≤ c.toNat ∧ c.toNat ≤ 57 := by
  unfold decVal at h
  split_ifs at h with h1 <;> simp_all <;> omega

lemma decVal_notWs {c : Char} {d : Nat} (h : decVal c = some d) : isWs c = false := by
  have := (decVal_bounds h).2
  simp only [isWs, decide_eq_false_iff_not]
  omega

lemma decVal_ne_comma {c : Char} {d : Nat} (h : decVal c = some d) : c ≠ ',' := by
  have := (decVal_bounds h).2
  exact char_ne_of_toNat (by simpa using by omega)

lemma decVal_ne_paren {c : Char} {d : Nat} (h : decVal c = some d) : c ≠ ')' := by
  have := (decVal_bounds h).2
  exact char_ne_of_toNat (by simpa using by omega)

lemma decVal_ne_sign {c : Char} {d : Nat} (h : decVal c = some d) :
    ¬(c = '+' ∨ c = '-') := by
  have := (decVal_bounds h).2
  rintro (rfl | rfl) <;> simp_all

lemma isWs_ne_delims {c : Char} (h : isWs c = true) :
    c ≠ '(' ∧ c ≠ ')' ∧ c ≠ ',' := by
  simp only [isWs, decide_eq_true_eq] at h
  refine ⟨char_ne_of_toNat ?_, char_ne_of_toNat ?_, char_ne_of_toNat ?_⟩ <;>
    simpa using by omega

lemma utf8Len_pos (c : Char) : 1 ≤ utf8Len c := by
  unfold utf8Len
  split_ifs <;> omega

lemma utf8Len_ascii {c : Char} (h : c.toNat < 128) : utf8Len c = 1 := by
  unfold utf8Len
  rw [if_pos h]

@[simp] lemma byteLen_nil : byteLen [] = 0 := rfl

@[simp] lemma byteLen_cons (c : Char) (l : List Char) :
    byteLen (c :: l) = utf8Len c + byteLen l := by
  simp [byteLen]

lemma byteLen_ge_length (l : List Char) : l.length ≤ byteLen l := by
  induction l with
  | nil => simp
  | cons c cs ih =>
    have := utf8Len_pos c
    simp only [byteLen_cons, List.length_cons]
    omega

lemma byteLen_ascii {l : List Char} (h : ∀ c ∈ l, utf8Len c = 1) :
    byteLen l = l.length := by
  induction l with
  | nil => simp
  | cons c cs ih =>
    have hc := h c (by simp)
    have := ih (fun x hx => h x (by simp [hx]))
    simp only [byteLen_cons, List.length_cons]
    omega

lemma byteLen_eq_iff {l : List Char} : byteLen l = l.length ↔ ∀ c ∈ l, utf8Len c = 1 := by
  constructor
  · intro h
    induction l with
    | nil => simp
    | cons c cs ih =>
      have h1 := utf8Len_pos c
      have h2 := byteLen_ge_length cs
      simp only [byteLen_cons, List.length_cons] at h
      intro x hx
      rcases List.mem_cons.mp hx with hx | hx
      · subst hx; omega
      · exact ih (by omega) x hx
  · exact byteLen_ascii

/-! ### Trimming -/

lemma dropWhile_ws_append {w : List Char} (hw : allWs w) (l : List Char) :
    (w ++ l).dropWhile (fun c => isWs c) = l.dropWhile (fun c => isWs c) := by
  induction w with
  | nil => simp
  | cons c cs ih =>
    have hc : isWs c = true := hw c (by simp)
    simp only [List.cons_append, List.dropWhile_cons, hc, if_true]
    exact ih (fun x hx => hw x (by simp [hx]))

lemma trimLeft_cons {c : Char} (hc : isWs c = false) (l : List Char) :
    trimLeft (c :: l) = c :: l := by
  simp [trimLeft, List.dropWhile_cons, hc]

lemma trimLeft_ws_append {w : List Char} (hw : allWs w) (l : List Char) :
    trimLeft (w ++ l) = trimLeft l := dropWhile_ws_append hw l

lemma trimRight_append_ws {w : List Char} (hw : allWs w) (l : List Char) :
    trimRight (l ++ w) = trimRight l := by
  simp only [trimRight, List.reverse_append]
  rw [dropWhile_ws_append (fun x hx => hw x (List.mem_reverse.mp hx))]

lemma trimRight_append_last {c : Char} (hc : isWs c = false) (l : List Char) :
    trimRight (l ++ [c]) = l ++ [c] := by
  simp [trimRight, List.dropWhile_cons, hc]

lemma trim_sandwich {w0 w1 : List Char} (hw0 : allWs w0) (hw1 : allWs w1)
    {a : Char} (ha : isWs a = false) {m : List Char} {b : Char} (hb : isWs b = false) :
    trim (w0 ++ (a :: (m ++ [b])) ++ w1) = a :: (m ++ [b]) := by
  unfold trim
  rw [show w0 ++ (a :: (m ++ [b])) ++ w1 = w0 ++ ((a :: (m ++ [b])) ++ w1) by simp,
    trimLeft_ws_append hw0,
    show (a :: (m ++ [b])) ++ w1 = a :: ((m ++ [b]) ++ w1) by simp,
    trimLeft_cons ha,
    show a :: (m ++ [b] ++ w1) = (a :: (m ++ [b])) ++ w1 by simp,
    trimRight_append_ws hw1,
    show a :: (m ++ [b]) = (a :: m) ++ [b] by simp]
  exact trimRight_append_last hb _

lemma trim_id_of_ends {a : Char} (ha : isWs a = false) {m : List Char} {b : Char}
    (hb : isWs b = false) : trim (a :: (m ++ [b])) = a :: (m ++ [b]) := by
  have h := trim_sandwich (show allWs [] from by intro c hc; cases hc)
    (show allWs [] from by intro c hc; cases hc) ha hb (m := m)
  simpa using h

/-! ### Named-color lookup -/

lemma asciiLower_cons (c : Char) (l : List Char) :
    asciiLower (c :: l) = asciiLowerChar c :: asciiLower l := rfl

lemma parse_named_hash (l : List Char) : parse_named_color ('#' :: l) = none := by
  have h : asciiLowerChar '#' = '#' := by decide
  simp +decide [parse_named_color, asciiLower_cons, h]

lemma parse_named_of_lower_rgb {t rest : List Char}
    (h : asciiLower t = 'r' :: 'g' :: 'b' :: '(' :: rest) :
    parse_named_color t = none := by
  simp +decide [parse_named_color, h]

/-! ### Dispatcher -/

@[simp] lemma stripHash_hash (l : List Char) : stripHash ('#' :: l) = some l := by
  simp [stripHash]

lemma stripHash_of_ne {c : Char} (hc : c ≠ '#') (l : List Char) :
    stripHash (c :: l) = none := by
  simp [stripHash, hc]

lemma parse_color_of_named {s : List Char} {col : Color}
    (h : parse_named_color (trim s) = some col) : parse_color s = .ok col := by
  unfold parse_color
  simp only [h]

lemma parse_color_not_named {s : List Char} (h : parse_named_color (trim s) = none) :
    parse_color s =
      match stripHash (trim s) with
      | some body =>
        if byteLen body = 3 then hex3 body
        else if byteLen body = 6 then hex6 body
        else .err (.InvalidLength (byteLen body))
      | none =>
        if startsWithL ['r', 'g', 'b', '('] (asciiLower (trim s)) then
          exceptToOutcome (parse_rgb (trim s))
        else if startsWithL ['h', 's', 'l', '('] (asciiLower (trim s)) then
          exceptToOutcome (parse_hsl (trim s))
        else .err .MissingHash := by
  unfold parse_color
  simp only [h]

lemma startsWithL_cons_of (a : Char) (p l : List Char) :
    startsWithL (a :: p) (a :: l) = startsWithL p l := by
  simp [startsWithL]

lemma startsWithL_four_eq {a b c d : Char} {l : List Char}
    (h : startsWithL [a, b, c, d] l = true) :
    ∃ rest, l = a :: b :: c :: d :: rest := by
  match l with
  | [] => simp [startsWithL] at h
  | [_] => simp [startsWithL] at h
  | [_, _] => simp [startsWithL] at h
  | [_, _, _] => simp [startsWithL] at h
  | x :: y :: z :: w :: rest =>
    simp only [startsWithL, Bool.and_eq_true, beq_iff_eq] at h
    obtain ⟨hx, hy, hz, hw, -⟩ := h
    exact ⟨rest, by rw [hx, hy, hz, hw]⟩

/-! ### Hex pair parsing -/

lemma u8Digits16_nil (acc : Nat) : u8Digits16 acc [] = .ok acc := rfl

lemma u8Digits16_cons (acc : Nat) (c : Char) (l : List Char) :
    u8Digits16 acc (c :: l) =
      match hexVal c with
      | none => .error .invalidDigit
      | some d =>
        if 255 < acc * 16 + d then .error .posOverflow
        else u8Digits16 (acc * 16 + d) l := rfl

lemma u8Radix16_cons (c : Char) (rest : List Char) :
    u8Radix16 (c :: rest) =
      if c = '+' ∨ c = '-' then
        if rest = [] then .error .invalidDigit
        else if c = '+' then u8Digits16 0 rest
        else u8Digits16 0 (c :: rest)
      else u8Digits16 0 (c :: rest) := rfl

lemma parse_component_def (s : List Char) :
    parse_component s =
      match u8Radix16 s with
      | .error k => .error (.ComponentParseError s k)
      | .ok v => .ok v := rfl

lemma u8Digits16_ok_mem {l : List Char} {acc v : Nat} (h : u8Digits16 acc l = .ok v) :
    ∀ c ∈ l, (hexVal c).isSome := by
  induction l generalizing acc with
  | nil => intro c hc; cases hc
  | cons c cs ih =>
    intro x hx
    rw [u8Digits16_cons] at h
    cases hv : hexVal c with
    | none =>
      simp only [hv] at h
      exact Except.noConfusion h
    | some d =>
      simp only [hv] at h
      by_cases hlt : 255 < acc * 16 + d
      · rw [if_pos hlt] at h; cases h
      · rw [if_neg hlt] at h
        rcases List.mem_cons.mp hx with rfl | hx
        · simp [hv]
        · exact ih h x hx

lemma u8Digits16_pair {a b : Char} {x y : Nat} (ha : hexVal a = some x)
    (hb : hexVal b = some y) : u8Digits16 0 [a, b] = .ok (16 * x + y) := by
  have hx := hexVal_le ha
  have hy := hexVal_le hb
  rw [u8Digits16_cons]
  simp only [ha]
  rw [if_neg (by omega), u8Digits16_cons]
  simp only [hb]
  rw [if_neg (by omega), u8Digits16_nil]
  congr 1
  omega

lemma u8Radix16_pair_ok {a b : Char} {x y : Nat} (ha : hexVal a = some x)
    (hb : hexVal b = some y) : u8Radix16 [a, b] = .ok (16 * x + y) := by
  have hna : ¬(a = '+' ∨ a = '-') := by
    rintro (rfl | rfl)
    · exact hexVal_ne_plus ha rfl
    · exact hexVal_ne_minus ha rfl
  rw [u8Radix16_cons, if_neg hna]
  exact u8Digits16_pair ha hb

lemma parse_component_pair_ok {a b : Char} {x y : Nat} (ha : hexVal a = some x)
    (hb : hexVal b = some y) : parse_component [a, b] = .ok (16 * x + y) := by
  rw [parse_component_def, u8Radix16_pair_ok ha hb]

lemma u8Radix16_plus_ok {b : Char} {y : Nat} (hb : hexVal b = some y) :
    u8Radix16 ['+', b] = .ok y := by
  rw [u8Radix16_cons, if_pos (Or.inl rfl), if_neg (by simp), if_pos rfl,
    u8Digits16_cons]
  simp only [hb]
  rw [if_neg (by have := hexVal_le hb; omega), u8Digits16_nil]
  congr 1
  omega

lemma parse_component_plus_ok {b : Char} {y : Nat} (hb : hexVal b = some y) :
    parse_component ['+', b] = .ok y := by
  rw [parse_component_def, u8Radix16_plus_ok hb]

lemma u8Digits16_err_head {c : Char} (hc : hexVal c = none) (acc : Nat)
    (l : List Char) : u8Digits16 acc (c :: l) = .error .invalidDigit := by
  rw [u8Digits16_cons]
  simp only [hc]

lemma parse_component_pair_err {a b : Char}
    (h : (hexVal a = none ∧ a ≠ '+') ∨ hexVal b = none) :
    parse_component [a, b] = .error (.ComponentParseError [a, b] .invalidDigit) := by
  have key : u8Radix16 [a, b] = .error .invalidDigit := by
    rw [u8Radix16_cons]
    by_cases hsign : a = '+' ∨ a = '-'
    · rw [if_pos hsign, if_neg (by simp)]
      rcases hsign with rfl | rfl
      · rw [if_pos rfl]
        rcases h with ⟨-, hne⟩ | hb
        · exact absurd rfl hne
        · exact u8Digits16_err_head hb 0 []
      · rw [if_neg (by decide)]
        exact u8Digits16_err_head (by decide) 0 [b]
    · rw [if_neg hsign]
      rcases h with ⟨ha, -⟩ | hb
      · exact u8Digits16_err_head ha 0 [b]
      · cases hva : hexVal a with
        | none => exact u8Digits16_err_head hva 0 [b]
        | some x =>
          rw [u8Digits16_cons]
          simp only [hva]
          rw [if_neg (by have := hexVal_le hva; omega)]
          exact u8Digits16_err_head hb _ []
  rw [parse_component_def, key]

lemma pair_ok_accepted {a b : Char} {v : Nat}
    (h : parse_component [a, b] = .ok v) : hexPairAccepted a b = true := by
  cases hvb : hexVal b with
  | none =>
    rw [parse_component_pair_err (Or.inr hvb)] at h
    cases h
  | some y =>
    cases hva : hexVal a with
    | some x => simp [hexPairAccepted, hva, hvb]
    | none =>
      by_cases hp : a = '+'
      · subst hp
        simp [hexPairAccepted, hvb]
      · rw [parse_component_pair_err (Or.inl ⟨hva, hp⟩)] at h
        cases h

lemma dup_ok_hex {d : Char} {v : Nat}
    (h : parse_component [d, d] = .ok v) : (hexVal d).isSome := by
  have hacc := pair_ok_accepted h
  simp only [hexPairAccepted, Bool.or_eq_true, Bool.and_eq_true, beq_iff_eq] at hacc
  rcases hacc with ⟨-, hb⟩ | ⟨rfl, hb⟩
  · exact hb
  · rw [show hexVal '+' = none from by decide] at hb
    cases hb

lemma parse_component_ok_iff {s : List Char} {v : Nat} :
    parse_component s = .ok v ↔ u8Radix16 s = .ok v := by
  rw [parse_component_def]
  cases h : u8Radix16 s <;> simp

lemma parse_component_ok_ascii {s : List Char} {v : Nat}
    (h : parse_component s = .ok v) : ∀ c ∈ s, utf8Len c = 1 := by
  rw [parse_component_ok_iff] at h
  intro c hc
  match s, hc with
  | a :: rest, hc =>
    rw [u8Radix16_cons] at h
    by_cases hsign : a = '+' ∨ a = '-'
    · rw [if_pos hsign] at h
      by_cases hrest : rest = []
      · rw [if_pos hrest] at h; cases h
      · rw [if_neg hrest] at h
        rcases hsign with rfl | rfl
        · rw [if_pos rfl] at h
          rcases List.mem_cons.mp hc with rfl | hc
          · exact utf8Len_ascii (by decide)
          · obtain ⟨w, hw⟩ := Option.isSome_iff_exists.mp (u8Digits16_ok_mem h c hc)
            exact utf8Len_ascii (hexVal_ascii hw)
        · rw [if_neg (by decide)] at h
          rw [u8Digits16_err_head (by decide)] at h
          cases h
    · rw [if_neg hsign] at h
      obtain ⟨w, hw⟩ := Option.isSome_iff_exists.mp (u8Digits16_ok_mem h c hc)
      exact utf8Len_ascii (hexVal_ascii hw)

/-! ### Byte slicing -/

lemma takeBytes_ascii {l : List Char} (h : ∀ c ∈ l, utf8Len c = 1) :
    ∀ n, n ≤ l.length → takeBytes n l = some (l.take n) := by
  induction l with
  | nil =>
    intro n hn
    have hn0 : n = 0 := by simpa using hn
    subst hn0
    rfl
  | cons c cs ih =>
    intro n hn
    match n with
    | 0 => rfl
    | m + 1 =>
      have hc := h c (List.mem_cons_self c cs)
      unfold takeBytes
      rw [hc, if_pos (by omega)]
      rw [show m + 1 - 1 = m from rfl,
        ih (fun x hx => h x (List.mem_cons_of_mem c hx)) m (by simpa using hn)]
      rfl

lemma dropBytes_ascii {l : List Char} (h : ∀ c ∈ l, utf8Len c = 1) :
    ∀ n, n ≤ l.length → dropBytes n l = some (l.drop n) := by
  induction l with
  | nil =>
    intro n hn
    have hn0 : n = 0 := by simpa using hn
    subst hn0
    rfl
  | cons c cs ih =>
    intro n hn
    match n with
    | 0 => rfl
    | m + 1 =>
      have hc := h c (List.mem_cons_self c cs)
      unfold dropBytes
      rw [hc, if_pos (by omega)]
      rw [show m + 1 - 1 = m from rfl,
        ih (fun x hx => h x (List.mem_cons_of_mem c hx)) m (by simpa using hn)]
      rfl

lemma takeBytes_sound {l : List Char} :
    ∀ {n : Nat} {t : List Char}, takeBytes n l = some t →
      byteLen t = n ∧ ∃ r, l = t ++ r := by
  induction l with
  | nil =>
    intro n t h
    match n with
    | 0 =>
      simp only [takeBytes] at h
      cases h
      exact ⟨rfl, [], rfl⟩
    | _ + 1 => cases h
  | cons c cs ih =>
    intro n t h
    match n with
    | 0 =>
      simp only [takeBytes] at h
      cases h
      exact ⟨rfl, c :: cs, rfl⟩
    | m + 1 =>
      unfold takeBytes at h
      by_cases hle : utf8Len c ≤ m + 1
      · rw [if_pos hle] at h
        cases ht' : takeBytes (m + 1 - utf8Len c) cs with
        | none => rw [ht'] at h; cases h
        | some t' =>
          rw [ht'] at h
          cases h
          obtain ⟨hbl, r, hr⟩ := ih ht'
          refine ⟨?_, r, by rw [hr]; rfl⟩
          simp only [byteLen_cons, hbl]
          omega
      · rw [if_neg hle] at h
        cases h

lemma sliceBytes_ascii {l : List Char} (h : ∀ c ∈ l, utf8Len c = 1) {a b : Nat}
    (hab : a ≤ b) (hble : b ≤ l.length) :
    sliceBytes a b l = some ((l.drop a).take (b - a)) := by
  unfold sliceBytes
  rw [dropBytes_ascii h a (by omega)]
  exact takeBytes_ascii (fun c hc => h c (List.mem_of_mem_drop hc)) (b - a)
    (by simp only [List.length_drop]; omega)

/-! ### Hex branch evaluation -/

lemma hex6_ascii {c1 c2 c3 c4 c5 c6 : Char}
    (h : ∀ c ∈ [c1, c2, c3, c4, c5, c6], utf8Len c = 1) :
    hex6 [c1, c2, c3, c4, c5, c6] =
      match parse_component [c1, c2] with
      | .error e => .err e
      | .ok r =>
        match parse_component [c3, c4] with
        | .error e => .err e
        | .ok g =>
          match parse_component [c5, c6] with
          | .error e => .err e
          | .ok b => .ok ⟨r, g, b⟩ := by
  unfold hex6
  rw [sliceBytes_ascii h (by omega) (by simp),
    sliceBytes_ascii h (by omega) (by simp),
    sliceBytes_ascii h (by omega) (by simp)]
  rfl

lemma hex3_def (c1 c2 c3 : Char) (rest : List Char) :
    hex3 (c1 :: c2 :: c3 :: rest) =
      match parse_component [c1, c1] with
      | .error e => .err e
      | .ok r =>
        match parse_component [c2, c2] with
        | .error e => .err e
        | .ok g =>
          match parse_component [c3, c3] with
          | .error e => .err e
          | .ok b => .ok ⟨r, g, b⟩ := rfl

/-! ### Specialized dispatch -/

lemma parse_color_hash {s body : List Char} (h : trim s = '#' :: body) :
    parse_color s =
      if byteLen body = 3 then hex3 body
      else if byteLen body = 6 then hex6 body
      else .err (.InvalidLength (byteLen body)) := by
  rw [parse_color_not_named (by rw [h]; exact parse_named_hash _), h, stripHash_hash]

lemma parse_color_fallthrough {s : List Char}
    (hn : parse_named_color (trim s) = none)
    (hh : stripHash (trim s) = none)
    (hr : startsWithL ['r', 'g', 'b', '('] (asciiLower (trim s)) = false)
    (hs : startsWithL ['h', 's', 'l', '('] (asciiLower (trim s)) = false) :
    parse_color s = .err .MissingHash := by
  rw [parse_color_not_named hn]
  simp [hh, hr, hs]

lemma parse_color_rgb_branch {s : List Char}
    (hn : parse_named_color (trim s) = none)
    (hh : stripHash (trim s) = none)
    (hr : startsWithL ['r', 'g', 'b', '('] (asciiLower (trim s)) = true) :
    parse_color s = exceptToOutcome (parse_rgb (trim s)) := by
  rw [parse_color_not_named hn]
  simp [hh, hr]

/-! ### Whole-input hex evaluation -/

lemma parse_color_hex_digits6 {c1 c2 c3 c4 c5 c6 : Char} {v1 v2 v3 v4 v5 v6 : Nat}
    (h1 : hexVal c1 = some v1) (h2 : hexVal c2 = some v2) (h3 : hexVal c3 = some v3)
    (h4 : hexVal c4 = some v4) (h5 : hexVal c5 = some v5) (h6 : hexVal c6 = some v6) :
    parse_color ['#', c1, c2, c3, c4, c5, c6] =
      .ok ⟨16 * v1 + v2, 16 * v3 + v4, 16 * v5 + v6⟩ := by
  have hall : ∀ c ∈ [c1, c2, c3, c4, c5, c6], utf8Len c = 1 := by
    intro c hc
    simp only [List.mem_cons, List.not_mem_nil, or_false] at hc
    rcases hc with rfl | rfl | rfl | rfl | rfl | rfl
    · exact utf8Len_ascii (hexVal_ascii h1)
    · exact utf8Len_ascii (hexVal_ascii h2)
    · exact utf8Len_ascii (hexVal_ascii h3)
    · exact utf8Len_ascii (hexVal_ascii h4)
    · exact utf8Len_ascii (hexVal_ascii h5)
    · exact utf8Len_ascii (hexVal_ascii h6)
  have ht : trim ['#', c1, c2, c3, c4, c5, c6] = '#' :: [c1, c2, c3, c4, c5, c6] := by
    have := trim_id_of_ends (a := '#') (by decide) (m := [c1, c2, c3, c4, c5])
      (b := c6) (hexVal_notWs h6)
    simpa using this
  rw [parse_color_hash ht]
  have hbl : byteLen [c1, c2, c3, c4, c5, c6] = 6 := by
    rw [byteLen_ascii hall]
    rfl
  rw [hbl, if_neg (by omega), if_pos rfl, hex6_ascii hall,
    parse_component_pair_ok h1 h2, parse_component_pair_ok h3 h4,
    parse_component_pair_ok h5 h6]

lemma parse_color_hex_digits3 {d1 d2 d3 : Char} {w1 w2 w3 : Nat}
    (g1 : hexVal d1 = some w1) (g2 : hexVal d2 = some w2) (g3 : hexVal d3 = some w3) :
    parse_color ['#', d1, d2, d3] = .ok ⟨16 * w1 + w1, 16 * w2 + w2, 16 * w3 + w3⟩ := by
  have ht : trim ['#', d1, d2, d3] = '#' :: [d1, d2, d3] := by
    have := trim_id_of_ends (a := '#') (by decide) (m := [d1, d2])
      (b := d3) (hexVal_notWs g3)
    simpa using this
  rw [parse_color_hash ht]
  have hbl : byteLen [d1, d2, d3] = 3 := by
    rw [byteLen_ascii (by
      intro c hc
      simp only [List.mem_cons, List.not_mem_nil, or_false] at hc
      rcases hc with rfl | rfl | rfl
      · exact utf8Len_ascii (hexVal_ascii g1)
      · exact utf8Len_ascii (hexVal_ascii g2)
      · exact utf8Len_ascii (hexVal_ascii g3))]
    rfl
  rw [hbl, if_pos rfl, hex3_def, parse_component_pair_ok g1 g1,
    parse_component_pair_ok g2 g2, parse_component_pair_ok g3 g3]

/-! ## Claim theorems -/

/-- Claim C1 (code_bug evidence): the claim states that `parse_color` is
total and never panics, in particular not on non-ASCII input.  The code
does panic: on `"#€"` (3-byte body, so the length-3 arm runs
`chars().next().unwrap()` three times on a single character) and on
`"#aé€"` (6-byte body whose byte offset 2 is not a character boundary, so
`&hex_str[0..2]` panics). -/
theorem parse_color_panics_on_non_ascii_C1 :
    parse_color ['#', '€'] = .panic ∧ parse_color ['#', 'a', 'é', '€'] = .panic := by
  constructor <;> decide

/-- Claim C9: every trimmed input starting with `#` whose body byte length
is neither 3 nor 6 fails with `InvalidLength` carrying exactly that
length. -/
theorem invalid_length_C9 {s body : List Char} (h : trim s = '#' :: body)
    (h3 : byteLen body ≠ 3) (h6 : byteLen body ≠ 6) :
    parse_color s = .err (.InvalidLength (byteLen body)) := by
  rw [parse_color_hash h, if_neg h3, if_neg h6]

/-- Witness for C9: `"#1234"` fails with `InvalidLength 4`. -/
theorem invalid_length_C9_witness :
    parse_color ['#', '1', '2', '3', '4'] = .err (.InvalidLength 4) := by
  have h := @invalid_length_C9 ['#', '1', '2', '3', '4'] ['1', '2', '3', '4']
    (by decide) (by decide) (by decide)
  rw [h]
  decide

/-- Claim C2: a trimmed `#`-input with six hex digits parses to the hex
value of the three consecutive pairs, and a trimmed `#`-input with three
hex digits parses to the same color as its duplicated 6-digit expansion. -/
theorem hex_values_C2 (c1 c2 c3 c4 c5 c6 d1 d2 d3 : Char)
    (v1 v2 v3 v4 v5 v6 w1 w2 w3 : Nat)
    (h1 : hexVal c1 = some v1) (h2 : hexVal c2 = some v2) (h3 : hexVal c3 = some v3)
    (h4 : hexVal c4 = some v4) (h5 : hexVal c5 = some v5) (h6 : hexVal c6 = some v6)
    (g1 : hexVal d1 = some w1) (g2 : hexVal d2 = some w2) (g3 : hexVal d3 = some w3) :
    parse_color ['#', c1, c2, c3, c4, c5, c6] =
      .ok ⟨16 * v1 + v2, 16 * v3 + v4, 16 * v5 + v6⟩ ∧
    parse_color ['#', d1, d2, d3] = parse_color ['#', d1, d1, d2, d2, d3, d3] := by
  refine ⟨parse_color_hex_digits6 h1 h2 h3 h4 h5 h6, ?_⟩
  rw [parse_color_hex_digits3 g1 g2 g3, parse_color_hex_digits6 g1 g1 g2 g2 g3 g3]

/-- Witness for C2: `"#1A2B3C"` → (26,43,60) and `"#FA0"` agrees with
`"#FFAA00"`. -/
theorem hex_values_C2_witness :
    parse_color ['#', '1', 'A', '2', 'B', '3', 'C'] = .ok ⟨26, 43, 60⟩ ∧
    parse_color ['#', 'F', 'A', '0'] =
      parse_color ['#', 'F', 'F', 'A', 'A', '0', '0'] := by
  have h := hex_values_C2 '1' 'A' '2' 'B' '3' 'C' 'F' 'A' '0' 1 10 2 11 3 12 15 10 0
    (by decide) (by decide) (by decide) (by decide) (by decide) (by decide)
    (by decide) (by decide) (by decide)
  refine ⟨?_, h.2⟩
  rw [h.1]

/-- Claim C10: in the length-3 hex arm, the first character whose
duplicated pair fails to parse produces `ComponentParseError` whose
payload is the synthesized duplicated 2-character string, not the single
input character. -/
theorem hex3_error_payload_C10 {s : List Char} (d1 d2 d3 : Char)
    (h : trim s = '#' :: [d1, d2, d3]) (hb : byteLen [d1, d2, d3] = 3) :
    (hexVal d1 = none →
      parse_color s = .err (.ComponentParseError [d1, d1] .invalidDigit)) ∧
    (∀ w1, hexVal d1 = some w1 → hexVal d2 = none →
      parse_color s = .err (.ComponentParseError [d2, d2] .invalidDigit)) ∧
    (∀ w1 w2, hexVal d1 = some w1 → hexVal d2 = some w2 → hexVal d3 = none →
      parse_color s = .err (.ComponentParseError [d3, d3] .invalidDigit)) := by
  rw [parse_color_hash h, hb, if_pos rfl, hex3_def]
  refine ⟨?_, ?_, ?_⟩
  · intro hn
    rw [parse_component_pair_err (Or.inr hn)]
  · intro w1 hs1 hn2
    rw [parse_component_pair_ok hs1 hs1, parse_component_pair_err (Or.inr hn2)]
  · intro w1 w2 hs1 hs2 hn3
    rw [parse_component_pair_ok hs1 hs1, parse_component_pair_ok hs2 hs2,
      parse_component_pair_err (Or.inr hn3)]

/-- Witness for C10: `"#1G2"` reports the synthesized pair `"GG"`. -/
theorem hex3_error_payload_C10_witness :
    parse_color ['#', '1', 'G', '2'] =
      .err (.ComponentParseError ['G', 'G'] .invalidDigit) := by
  exact (hex3_error_payload_C10 (s := ['#', '1', 'G', '2']) '1' 'G' '2'
    (by decide) (by decide)).2.1 1 (by decide) (by decide)

/-! ### Hex-branch success analysis (claim C3) -/

lemma hex6_ok_pairs {c1 c2 c3 c4 c5 c6 : Char} {col : Color}
    (hall : ∀ c ∈ [c1, c2, c3, c4, c5, c6], utf8Len c = 1)
    (hok : hex6 [c1, c2, c3, c4, c5, c6] = .ok col) :
    (∃ v, parse_component [c1, c2] = .ok v) ∧
    (∃ v, parse_component [c3, c4] = .ok v) ∧
    (∃ v, parse_component [c5, c6] = .ok v) := by
  rw [hex6_ascii hall] at hok
  cases hp1 : parse_component [c1, c2] with
  | error e =>
    simp only [hp1] at hok
    exact ROutcome.noConfusion hok
  | ok v1 =>
    simp only [hp1] at hok
    cases hp2 : parse_component [c3, c4] with
    | error e =>
      simp only [hp2] at hok
      exact ROutcome.noConfusion hok
    | ok v2 =>
      simp only [hp2] at hok
      cases hp3 : parse_component [c5, c6] with
      | error e =>
        simp only [hp3] at hok
        exact ROutcome.noConfusion hok
      | ok v3 => exact ⟨⟨v1, rfl⟩, ⟨v2, rfl⟩, ⟨v3, rfl⟩⟩

lemma hex3_ok_pairs {d1 d2 d3 : Char} {col : Color}
    (hok : hex3 [d1, d2, d3] = .ok col) :
    (∃ v, parse_component [d1, d1] = .ok v) ∧
    (∃ v, parse_component [d2, d2] = .ok v) ∧
    (∃ v, parse_component [d3, d3] = .ok v) := by
  rw [hex3_def] at hok
  cases hp1 : parse_component [d1, d1] with
  | error e =>
    simp only [hp1] at hok
    exact ROutcome.noConfusion hok
  | ok v1 =>
    simp only [hp1] at hok
    cases hp2 : parse_component [d2, d2] with
    | error e =>
      simp only [hp2] at hok
      exact ROutcome.noConfusion hok
    | ok v2 =>
      simp only [hp2] at hok
      cases hp3 : parse_component [d3, d3] with
      | error e =>
        simp only [hp3] at hok
        exact ROutcome.noConfusion hok
      | ok v3 => exact ⟨⟨v1, rfl⟩, ⟨v2, rfl⟩, ⟨v3, rfl⟩⟩

/-- A 3-character body can never succeed through the 6-byte arm: any slice
that parses is made of ASCII hex material, which forces impossible byte
counts. -/
lemma hex6_of_three_not_ok {d1 d2 d3 : Char} {col : Color}
    (hok : hex6 [d1, d2, d3] = .ok col) : False := by
  unfold hex6 at hok
  cases hs1 : sliceBytes 0 2 [d1, d2, d3] with
  | none =>
    simp only [hs1] at hok
    exact ROutcome.noConfusion hok
  | some rs =>
    simp only [hs1] at hok
    cases hp1 : parse_component rs with
    | error e =>
      simp only [hp1] at hok
      exact ROutcome.noConfusion hok
    | ok v1 =>
      simp only [hp1] at hok
      -- the first slice is an ASCII prefix of byte length 2, hence [d1, d2]
      have hascii := parse_component_ok_ascii hp1
      have htb : takeBytes 2 [d1, d2, d3] = some rs := by
        unfold sliceBytes at hs1
        simpa using hs1
      obtain ⟨hbl, r, hr⟩ := takeBytes_sound htb
      have hlen : rs.length = 2 := by
        rw [byteLen_ascii hascii] at hbl
        exact hbl
      rcases rs with _ | ⟨a, _ | ⟨b, _ | ⟨x, xs⟩⟩⟩ <;> simp at hlen
      simp only [List.cons_append, List.nil_append, List.cons.injEq] at hr
      obtain ⟨rfl, rfl, hr3⟩ := hr
      have ha1 : utf8Len d1 = 1 := hascii d1 (by simp)
      have ha2 : utf8Len d2 = 1 := hascii d2 (by simp)
      -- second slice: drop 2 bytes leaves [d3]; taking 2 bytes from it
      -- either panics or returns a 2-byte ASCII singleton, impossible
      have hdrop : dropBytes 2 [d1, d2, d3] = some [d3] := by
        unfold dropBytes
        rw [ha1, if_pos (by omega)]
        unfold dropBytes
        rw [ha2, if_pos (by omega)]
        rfl
      cases hs2 : sliceBytes 2 4 [d1, d2, d3] with
      | none =>
        simp only [hs2] at hok
        exact ROutcome.noConfusion hok
      | some gs =>
        simp only [hs2] at hok
        cases hp2 : parse_component gs with
        | error e =>
          simp only [hp2] at hok
          exact ROutcome.noConfusion hok
        | ok v2 =>
          have htb2 : takeBytes 2 [d3] = some gs := by
            unfold sliceBytes at hs2
            rw [hdrop] at hs2
            simpa using hs2
          obtain ⟨hbl2, r2, hr2⟩ := takeBytes_sound htb2
          have hascii2 := parse_component_ok_ascii hp2
          have hlen2 : gs.length = 2 := by
            rw [byteLen_ascii hascii2] at hbl2
            exact hbl2
          have hlencontra := congrArg List.length hr2
          simp only [List.length_cons, List.length_nil, List.length_append,
            hlen2] at hlencontra
          omega

/-- Claim C3 counterexample: `"#+1+2+3"` succeeds even though `'+'` is not
a hex digit, refuting "success implies all 6 effective characters are hex
digits / no partial acceptance of sign characters". -/
theorem hex_digit_soundness_C3_counterexample :
    parse_color ['#', '+', '1', '+', '2', '+', '3'] = .ok ⟨1, 2, 3⟩ ∧
    hexVal '+' = none := by
  constructor <;> decide

/-- Claim C3 (amended): success in the 6-character hex arm means each of
the three pairs parses as a base-16 `u8` — both characters hex digits, or
a leading `'+'` followed by a hex digit; in the 3-character arm all three
characters must be hex digits; a pair accepted by neither shape fails with
`ComponentParseError` carrying the offending duplicated/sliced pair and an
invalid-digit diagnostic; `"#1A2B3G"` fails on the pair `"3G"`. -/
theorem hex_digit_soundness_C3 :
    (∀ (s : List Char) (c1 c2 c3 c4 c5 c6 : Char) (col : Color),
      trim s = '#' :: [c1, c2, c3, c4, c5, c6] → parse_color s = .ok col →
      hexPairAccepted c1 c2 = true ∧ hexPairAccepted c3 c4 = true ∧
        hexPairAccepted c5 c6 = true) ∧
    (∀ (s : List Char) (d1 d2 d3 : Char) (col : Color),
      trim s = '#' :: [d1, d2, d3] → parse_color s = .ok col →
      (hexVal d1).isSome ∧ (hexVal d2).isSome ∧ (hexVal d3).isSome) ∧
    (∀ a b : Char, (hexVal a = none ∧ a ≠ '+') ∨ hexVal b = none →
      parse_component [a, b] = .error (.ComponentParseError [a, b] .invalidDigit)) ∧
    parse_color ['#', '1', 'A', '2', 'B', '3', 'G'] =
      .err (.ComponentParseError ['3', 'G'] .invalidDigit) := by
  refine ⟨?_, ?_, fun a b h => parse_component_pair_err h, by decide⟩
  · intro s c1 c2 c3 c4 c5 c6 col ht hok
    rw [parse_color_hash ht] at hok
    by_cases hall : ∀ c ∈ [c1, c2, c3, c4, c5, c6], utf8Len c = 1
    · have hbl : byteLen [c1, c2, c3, c4, c5, c6] = 6 := by
        rw [byteLen_ascii hall]
        rfl
      rw [hbl, if_neg (by omega), if_pos rfl] at hok
      obtain ⟨⟨v1, hp1⟩, ⟨v2, hp2⟩, ⟨v3, hp3⟩⟩ := hex6_ok_pairs hall hok
      exact ⟨pair_ok_accepted hp1, pair_ok_accepted hp2, pair_ok_accepted hp3⟩
    · have hge := byteLen_ge_length [c1, c2, c3, c4, c5, c6]
      have hne : byteLen [c1, c2, c3, c4, c5, c6] ≠ 6 := fun he =>
        hall (byteLen_eq_iff.mp (by rw [he]; rfl))
      simp only [List.length_cons, List.length_nil] at hge
      rw [if_neg (by omega), if_neg (by omega)] at hok
      exact ROutcome.noConfusion hok
  · intro s d1 d2 d3 col ht hok
    rw [parse_color_hash ht] at hok
    by_cases hb3 : byteLen [d1, d2, d3] = 3
    · rw [hb3, if_pos rfl] at hok
      obtain ⟨⟨v1, hp1⟩, ⟨v2, hp2⟩, ⟨v3, hp3⟩⟩ := hex3_ok_pairs hok
      exact ⟨dup_ok_hex hp1, dup_ok_hex hp2, dup_ok_hex hp3⟩
    · rw [if_neg hb3] at hok
      by_cases hb6 : byteLen [d1, d2, d3] = 6
      · rw [hb6, if_pos rfl] at hok
        exact absurd hok (fun h => hex6_of_three_not_ok h)
      · rw [if_neg hb6] at hok
        exact ROutcome.noConfusion hok

/-- Witness for C3: applies the 6-character part at `"#+1+2+3"` and the
error part at the pair `"ZZ"`. -/
theorem hex_digit_soundness_C3_witness :
    hexPairAccepted '+' '1' = true ∧
    parse_component ['Z', 'Z'] =
      .error (.ComponentParseError ['Z', 'Z'] .invalidDigit) := by
  refine ⟨?_, hex_digit_soundness_C3.2.2.1 'Z' 'Z' (Or.inr (by decide))⟩
  exact (hex_digit_soundness_C3.1 ['#', '+', '1', '+', '2', '+', '3']
    '+' '1' '+' '2' '+' '3' ⟨1, 2, 3⟩ (by decide) (by decide)).1

/-! ### Named colors and fall-through (claim C7) -/

lemma parse_color_named_eval {s target : List Char} {col : Color}
    (h : asciiLower (trim s) = target)
    (hl : (if target = ['b', 'l', 'a', 'c', 'k'] then some (⟨0, 0, 0⟩ : Color)
      else if target = ['w', 'h', 'i', 't', 'e'] then some ⟨255, 255, 255⟩
      else if target = ['r', 'e', 'd'] then some ⟨255, 0, 0⟩
      else if target = ['g', 'r', 'e', 'e', 'n'] then some ⟨0, 128, 0⟩
      else if target = ['b', 'l', 'u', 'e'] then some ⟨0, 0, 255⟩
      else if target = ['y', 'e', 'l', 'l', 'o', 'w'] then some ⟨255, 255, 0⟩
      else if target = ['c', 'y', 'a', 'n'] then some ⟨0, 255, 255⟩
      else if target = ['m', 'a', 'g', 'e', 'n', 't', 'a'] then some ⟨255, 0, 255⟩
      else if target = ['g', 'r', 'a', 'y'] then some ⟨128, 128, 128⟩
      else if target = ['g', 'r', 'e', 'y'] then some ⟨128, 128, 128⟩
      else if target = ['r', 'e', 'b', 'e', 'c', 'c', 'a', 'p', 'u', 'r', 'p', 'l', 'e']
        then some ⟨102, 51, 153⟩
      else none) = some col) :
    parse_color s = .ok col := by
  refine parse_color_of_named ?_
  unfold parse_named_color
  simp only [h]
  exact hl

/-- Claim C7: named lookup is ASCII-case-insensitive and exact over the
closed table with the CSS values, and any trimmed input that matches no
name, does not start with `#`, and does not start case-insensitively with
`rgb(` or `hsl(` fails with the `MissingHashPrefix` variant. -/
theorem named_and_fallthrough_C7 :
    (∀ s, asciiLower (trim s) = ['b', 'l', 'a', 'c', 'k'] →
      parse_color s = .ok ⟨0, 0, 0⟩) ∧
    (∀ s, asciiLower (trim s) = ['w', 'h', 'i', 't', 'e'] →
      parse_color s = .ok ⟨255, 255, 255⟩) ∧
    (∀ s, asciiLower (trim s) = ['r', 'e', 'd'] →
      parse_color s = .ok ⟨255, 0, 0⟩) ∧
    (∀ s, asciiLower (trim s) = ['g', 'r', 'e', 'e', 'n'] →
      parse_color s = .ok ⟨0, 128, 0⟩) ∧
    (∀ s, asciiLower (trim s) = ['b', 'l', 'u', 'e'] →
      parse_color s = .ok ⟨0, 0, 255⟩) ∧
    (∀ s, asciiLower (trim s) = ['y', 'e', 'l', 'l', 'o', 'w'] →
      parse_color s = .ok ⟨255, 255, 0⟩) ∧
    (∀ s, asciiLower (trim s) = ['c', 'y', 'a', 'n'] →
      parse_color s = .ok ⟨0, 255, 255⟩) ∧
    (∀ s, asciiLower (trim s) = ['m', 'a', 'g', 'e', 'n', 't', 'a'] →
      parse_color s = .ok ⟨255, 0, 255⟩) ∧
    (∀ s, asciiLower (trim s) = ['g', 'r', 'a', 'y'] →
      parse_color s = .ok ⟨128, 128, 128⟩) ∧
    (∀ s, asciiLower (trim s) = ['g', 'r', 'e', 'y'] →
      parse_color s = .ok ⟨128, 128, 128⟩) ∧
    (∀ s, asciiLower (trim s) =
        ['r', 'e', 'b', 'e', 'c', 'c', 'a', 'p', 'u', 'r', 'p', 'l', 'e'] →
      parse_color s = .ok ⟨102, 51, 153⟩) ∧
    (∀ s, parse_named_color (trim s) = none →
      (∀ b, trim s ≠ '#' :: b) →
      startsWithL ['r', 'g', 'b', '('] (asciiLower (trim s)) = false →
      startsWithL ['h', 's', 'l', '('] (asciiLower (trim s)) = false →
      parse_color s = .err .MissingHash) ∧
    parse_color ['n', 'o', 't', 'a', 'c', 'o', 'l', 'o', 'r'] = .err .MissingHash ∧
    parse_color ['1', 'A', '2', 'B', '3', 'C'] = .err .MissingHash := by
  refine ⟨fun s h => parse_color_named_eval h (by decide),
    fun s h => parse_color_named_eval h (by decide),
    fun s h => parse_color_named_eval h (by decide),
    fun s h => parse_color_named_eval h (by decide),
    fun s h => parse_color_named_eval h (by decide),
    fun s h => parse_color_named_eval h (by decide),
    fun s h => parse_color_named_eval h (by decide),
    fun s h => parse_color_named_eval h (by decide),
    fun s h => parse_color_named_eval h (by decide),
    fun s h => parse_color_named_eval h (by decide),
    fun s h => parse_color_named_eval h (by decide),
    ?_, by decide, by decide⟩
  intro s hn hhash hr hs2
  have hh : stripHash (trim s) = none := by
    cases htr : trim s with
    | nil => rfl
    | cons c rest =>
      by_cases hc : c = '#'
      · exact absurd (hc ▸ htr) (hhash rest)
      · exact stripHash_of_ne hc rest
  exact parse_color_fallthrough hn hh hr hs2

/-- Witness for C7: `" ReD "` parses case-insensitively to red, and
`"xyz"` falls through to the `MissingHashPrefix` variant. -/
theorem named_and_fallthrough_C7_witness :
    parse_color [' ', 'R', 'e', 'D', ' '] = .ok ⟨255, 0, 0⟩ ∧
    parse_color ['x', 'y', 'z'] = .err .MissingHash := by
  constructor
  · exact named_and_fallthrough_C7.2.2.1 [' ', 'R', 'e', 'D', ' '] (by decide)
  · refine named_and_fallthrough_C7.2.2.2.2.2.2.2.2.2.2.2.1 ['x', 'y', 'z']
      (by decide) ?_ (by decide) (by decide)
    intro b hb
    rw [show trim ['x', 'y', 'z'] = ['x', 'y', 'z'] from by decide] at hb
    exact absurd (List.cons.inj hb).1 (by decide)

/-! ### Decimal integer parsing -/

lemma foldl_digits (l : List Char) : ∀ acc : Nat,
    List.foldl (fun a c => a * 10 + (decVal c).getD 0) acc l =
      acc * 10 ^ l.length + natValD l := by
  induction l with
  | nil =>
    intro acc
    simp [natValD]
  | cons c cs ih =>
    intro acc
    have hstep : natValD (c :: cs) =
        ((decVal c).getD 0) * 10 ^ cs.length + natValD cs := by
      have h0 : natValD (c :: cs) =
          List.foldl (fun a c => a * 10 + (decVal c).getD 0)
            (0 * 10 + (decVal c).getD 0) cs := rfl
      rw [h0, ih]
      ring_nf
    have h1 : List.foldl (fun a c => a * 10 + (decVal c).getD 0) acc (c :: cs) =
        List.foldl (fun a c => a * 10 + (decVal c).getD 0)
          (acc * 10 + (decVal c).getD 0) cs := rfl
    rw [h1, ih, hstep, List.length_cons]
    ring

lemma natValD_cons_digit {c : Char} {d : Nat} (hd : decVal c = some d)
    (cs : List Char) : natValD (c :: cs) = d * 10 ^ cs.length + natValD cs := by
  have h0 : natValD (c :: cs) =
      List.foldl (fun a c => a * 10 + (decVal c).getD 0)
        (0 * 10 + (decVal c).getD 0) cs := rfl
  rw [h0, foldl_digits, hd]
  simp

lemma i32Loop_cons_some (pos : Bool) (acc : Int) {c : Char} {d : Nat}
    (hd : decVal c = some d) (rest : List Char) :
    i32Loop pos acc (c :: rest) =
      if pos then
        if 2147483647 < acc * 10 + (d : Int) then none
        else i32Loop pos (acc * 10 + (d : Int)) rest
      else
        if acc * 10 - (d : Int) < -2147483648 then none
        else i32Loop pos (acc * 10 - (d : Int)) rest := by
  conv_lhs => unfold i32Loop
  simp only [hd]

lemma i32Loop_cons_none {c : Char} (hd : decVal c = none) (pos : Bool) (acc : Int)
    (rest : List Char) : i32Loop pos acc (c :: rest) = none := by
  unfold i32Loop
  simp only [hd]

lemma i32Loop_digits (l : List Char) : ∀ acc : Nat, allDigits l →
    acc * 10 ^ l.length + natValD l ≤ 2147483647 →
    i32Loop true (acc : Int) l = some ((acc * 10 ^ l.length + natValD l : Nat) : Int) := by
  induction l with
  | nil =>
    intro acc hall hle
    simp [i32Loop, natValD]
  | cons c cs ih =>
    intro acc hall hle
    obtain ⟨d, hd⟩ := Option.isSome_iff_exists.mp (hall c (by simp))
    have hd9 := (decVal_bounds hd).1
    have hk : (1 : Nat) ≤ 10 ^ cs.length := Nat.one_le_pow _ _ (by norm_num)
    have hstep := natValD_cons_digit hd cs
    have hbound : acc * 10 + d ≤ acc * 10 ^ (c :: cs).length + natValD (c :: cs) := by
      rw [hstep, List.length_cons]
      calc acc * 10 + d ≤ (acc * 10 + d) * 10 ^ cs.length :=
            Nat.le_mul_of_pos_right _ (by omega)
        _ = acc * 10 ^ (cs.length + 1) + d * 10 ^ cs.length := by ring
        _ ≤ acc * 10 ^ (cs.length + 1) + (d * 10 ^ cs.length + natValD cs) := by omega
    have hsmall : acc * 10 + d ≤ 2147483647 := le_trans hbound hle
    rw [i32Loop_cons_some true _ hd, if_pos rfl,
      if_neg (by exact_mod_cast Nat.not_lt.mpr hsmall)]
    have hcast : (acc : Int) * 10 + (d : Int) = ((acc * 10 + d : Nat) : Int) := by
      push_cast
      ring
    rw [hcast, ih (acc * 10 + d) (fun x hx => hall x (by simp [hx])) (by
      have : (acc * 10 + d) * 10 ^ cs.length + natValD cs =
          acc * 10 ^ (c :: cs).length + natValD (c :: cs) := by
        rw [hstep, List.length_cons]
        ring
      omega)]
    congr 1
    rw [hstep, List.length_cons]
    ring

lemma parseI32_cons (c : Char) (rest : List Char) :
    parseI32 (c :: rest) =
      if c = '+' ∨ c = '-' then
        if rest = [] then none else i32Loop (c = '+') 0 rest
      else i32Loop true 0 (c :: rest) := rfl

lemma isSignedDigits_cons (c : Char) (rest : List Char) :
    isSignedDigits (c :: rest) =
      if c = '+' ∨ c = '-' then
        !rest.isEmpty && rest.all (fun d => (decVal d).isSome)
      else (c :: rest).all (fun d => (decVal d).isSome) := rfl

lemma parseI32_digits {p : List Char} (hne : p ≠ []) (hall : allDigits p)
    (hle : natValD p ≤ 2147483647) : parseI32 p = some ((natValD p : Nat) : Int) := by
  match p, hne with
  | c :: rest, _ =>
    obtain ⟨d, hd⟩ := Option.isSome_iff_exists.mp (hall c (by simp))
    rw [parseI32_cons, if_neg (decVal_ne_sign hd)]
    have h := i32Loop_digits (c :: rest) 0 hall (by simpa using hle)
    simpa using h

lemma i32Loop_some_digits {l : List Char} : ∀ {pos : Bool} {acc v : Int},
    i32Loop pos acc l = some v → allDigits l := by
  induction l with
  | nil =>
    intro _ _ _ _ c hc
    cases hc
  | cons c cs ih =>
    intro pos acc v h x hx
    cases hd : decVal c with
    | none =>
      rw [i32Loop_cons_none hd] at h
      cases h
    | some d =>
      rw [i32Loop_cons_some pos acc hd] at h
      rcases List.mem_cons.mp hx with rfl | hx
      · simp [hd]
      · cases pos with
        | false =>
          rw [if_neg (by decide)] at h
          by_cases hlt : acc * 10 - (d : Int) < -2147483648
          · rw [if_pos hlt] at h; cases h
          · rw [if_neg hlt] at h
            exact ih h x hx
        | true =>
          rw [if_pos rfl] at h
          by_cases hlt : (2147483647 : Int) < acc * 10 + (d : Int)
          · rw [if_pos hlt] at h; cases h
          · rw [if_neg hlt] at h
            exact ih h x hx

lemma parseI32_shape {p : List Char} {v : Int} (h : parseI32 p = some v) :
    isSignedDigits p = true := by
  match p with
  | [] => exact Option.noConfusion h
  | c :: rest =>
    rw [parseI32_cons] at h
    rw [isSignedDigits_cons]
    by_cases hsig : c = '+' ∨ c = '-'
    · rw [if_pos hsig] at h
      rw [if_pos hsig]
      by_cases hr : rest = []
      · rw [if_pos hr] at h; cases h
      · rw [if_neg hr] at h
        have hdig := i32Loop_some_digits h
        simp only [Bool.and_eq_true, Bool.not_eq_true', List.all_eq_true]
        refine ⟨?_, fun x hx => hdig x hx⟩
        cases rest with
        | nil => exact absurd rfl hr
        | cons a as => rfl
    · rw [if_neg hsig] at h
      rw [if_neg hsig]
      have hdig := i32Loop_some_digits h
      exact List.all_eq_true.mpr (fun x hx => hdig x hx)

/-! ### Comma splitting -/

lemma splitComma_no_comma {l : List Char} (h : ',' ∉ l) : splitComma l = [l] := by
  induction l with
  | nil => rfl
  | cons c cs ih =>
    conv_lhs => unfold splitComma
    rw [if_neg (by rintro rfl; exact h (by simp))]
    rw [ih (fun hc => h (by simp [hc]))]

lemma splitComma_append {l1 : List Char} (h : ',' ∉ l1) (l2 : List Char) :
    splitComma (l1 ++ ',' :: l2) = l1 :: splitComma l2 := by
  induction l1 with
  | nil => simp [splitComma]
  | cons c cs ih =>
    simp only [List.cons_append]
    conv_lhs => unfold splitComma
    rw [if_neg (by rintro rfl; exact h (by simp))]
    rw [ih (fun hc => h (by simp [hc]))]

/-! ### rgb branch evaluation -/

lemma parse_rgb_none_open {input : List Char} (h : firstIdxOf '(' input = none) :
    parse_rgb input = .error .RgbInvalidFormat := by
  unfold parse_rgb
  simp only [h]

lemma parse_rgb_none_close {input : List Char} {o : Nat}
    (ho : firstIdxOf '(' input = some o) (h : lastIdxOf ')' input = none) :
    parse_rgb input = .error .RgbInvalidFormat := by
  unfold parse_rgb
  simp only [ho, h]

lemma parse_rgb_degenerate {input : List Char} {o cl : Nat}
    (ho : firstIdxOf '(' input = some o) (hcl : lastIdxOf ')' input = some cl)
    (hle : cl ≤ o + 1) : parse_rgb input = .error .RgbInvalidFormat := by
  unfold parse_rgb
  simp only [ho, hcl]
  rw [if_pos hle]

lemma parse_rgb_eval {input : List Char} {o cl : Nat}
    (ho : firstIdxOf '(' input = some o) (hcl : lastIdxOf ')' input = some cl)
    (hgt : o + 1 < cl) :
    parse_rgb input =
      rgbFromParts ((splitComma ((input.take cl).drop (o + 1))).map trim) := by
  unfold parse_rgb
  simp only [ho, hcl]
  rw [if_neg (by omega)]

lemma rgbFromParts_three (p0 p1 p2 : List Char) :
    rgbFromParts [p0, p1, p2] =
      match parseI32 p0 with
      | none => .error (.RgbComponentParseError p0)
      | some v0 =>
        if v0 < 0 ∨ 255 < v0 then .error (.RgbComponentOutOfRange v0)
        else
          match parseI32 p1 with
          | none => .error (.RgbComponentParseError p1)
          | some v1 =>
            if v1 < 0 ∨ 255 < v1 then .error (.RgbComponentOutOfRange v1)
            else
              match parseI32 p2 with
              | none => .error (.RgbComponentParseError p2)
              | some v2 =>
                if v2 < 0 ∨ 255 < v2 then .error (.RgbComponentOutOfRange v2)
                else .ok ⟨v0.toNat, v1.toNat, v2.toNat⟩ := rfl

lemma rgbFromParts_not_three {parts : List (List Char)} (h : parts.length ≠ 3) :
    rgbFromParts parts = .error .RgbInvalidFormat := by
  match parts with
  | [] => rfl
  | [_] => rfl
  | [_, _] => rfl
  | [_, _, _] => exact absurd rfl h
  | _ :: _ :: _ :: _ :: _ => rfl

/-- Claim C8: the rgb error taxonomy — missing parenthesis, degenerate or
wrongly-arity interior give `RgbInvalidFormat`; a piece that does not
parse as `i32` gives `RgbComponentParseError` with that trimmed piece; a
piece parsing outside `[0,255]` gives `RgbComponentOutOfRange` with the
signed value; pieces are checked in source order; plus the three concrete
examples of the spec. -/
theorem rgb_error_taxonomy_C8 :
    (∀ s, firstIdxOf '(' s = none → parse_rgb s = .error .RgbInvalidFormat) ∧
    (∀ s o, firstIdxOf '(' s = some o → lastIdxOf ')' s = none →
      parse_rgb s = .error .RgbInvalidFormat) ∧
    (∀ s o cl, firstIdxOf '(' s = some o → lastIdxOf ')' s = some cl →
      cl ≤ o + 1 → parse_rgb s = .error .RgbInvalidFormat) ∧
    (∀ s o cl, firstIdxOf '(' s = some o → lastIdxOf ')' s = some cl →
      o + 1 < cl → ((splitComma ((s.take cl).drop (o + 1))).map trim).length ≠ 3 →
      parse_rgb s = .error .RgbInvalidFormat) ∧
    (∀ s o cl p0 p1 p2, firstIdxOf '(' s = some o → lastIdxOf ')' s = some cl →
      o + 1 < cl → (splitComma ((s.take cl).drop (o + 1))).map trim = [p0, p1, p2] →
      (parseI32 p0 = none → parse_rgb s = .error (.RgbComponentParseError p0)) ∧
      (∀ v0, parseI32 p0 = some v0 → (v0 < 0 ∨ 255 < v0) →
        parse_rgb s = .error (.RgbComponentOutOfRange v0)) ∧
      (∀ v0, parseI32 p0 = some v0 → 0 ≤ v0 → v0 ≤ 255 → parseI32 p1 = none →
        parse_rgb s = .error (.RgbComponentParseError p1)) ∧
      (∀ v0 v1, parseI32 p0 = some v0 → 0 ≤ v0 → v0 ≤ 255 →
        parseI32 p1 = some v1 → (v1 < 0 ∨ 255 < v1) →
        parse_rgb s = .error (.RgbComponentOutOfRange v1)) ∧
      (∀ v0 v1, parseI32 p0 = some v0 → 0 ≤ v0 → v0 ≤ 255 →
        parseI32 p1 = some v1 → 0 ≤ v1 → v1 ≤ 255 → parseI32 p2 = none →
        parse_rgb s = .error (.RgbComponentParseError p2)) ∧
      (∀ v0 v1 v2, parseI32 p0 = some v0 → 0 ≤ v0 → v0 ≤ 255 →
        parseI32 p1 = some v1 → 0 ≤ v1 → v1 ≤ 255 →
        parseI32 p2 = some v2 → (v2 < 0 ∨ 255 < v2) →
        parse_rgb s = .error (.RgbComponentOutOfRange v2))) ∧
    parse_color ['r', 'g', 'b', '(', '2', '5', '5', ',', ' ', '1', '7', '0', ')'] =
      .err .RgbInvalidFormat ∧
    parse_color ['r', 'g', 'b', '(', '2', '5', '6', ',', '0', ',', '0', ')'] =
      .err (.RgbComponentOutOfRange 256) ∧
    parse_color ['r', 'g', 'b', '(', 'a', 'a', ',', '0', ',', '0', ')'] =
      .err (.RgbComponentParseError ['a', 'a']) := by
  refine ⟨fun s h => parse_rgb_none_open h,
    fun s o ho h => parse_rgb_none_close ho h,
    fun s o cl ho hcl hle => parse_rgb_degenerate ho hcl hle,
    fun s o cl ho hcl hgt hlen => by
      rw [parse_rgb_eval ho hcl hgt]
      exact rgbFromParts_not_three hlen,
    ?_, by decide, by decide, by decide⟩
  intro s o cl p0 p1 p2 ho hcl hgt hparts
  have base : parse_rgb s = rgbFromParts [p0, p1, p2] := by
    rw [parse_rgb_eval ho hcl hgt, hparts]
  refine ⟨?_, ?_, ?_, ?_, ?_, ?_⟩
  · intro hn
    rw [base, rgbFromParts_three]
    simp only [hn]
  · intro v0 h0 hrange
    rw [base, rgbFromParts_three]
    simp only [h0]
    rw [if_pos hrange]
  · intro v0 h0 hge hle hn
    rw [base, rgbFromParts_three]
    simp only [h0]
    rw [if_neg (by omega)]
    simp only [hn]
  · intro v0 v1 h0 hge hle h1 hrange
    rw [base, rgbFromParts_three]
    simp only [h0]
    rw [if_neg (by omega)]
    simp only [h1]
    rw [if_pos hrange]
  · intro v0 v1 h0 hge0 hle0 h1 hge1 hle1 hn
    rw [base, rgbFromParts_three]
    simp only [h0]
    rw [if_neg (by omega)]
    simp only [h1]
    rw [if_neg (by omega)]
    simp only [hn]
  · intro v0 v1 v2 h0 hge0 hle0 h1 hge1 hle1 h2 hrange
    rw [base, rgbFromParts_three]
    simp only [h0]
    rw [if_neg (by omega)]
    simp only [h1]
    rw [if_neg (by omega)]
    simp only [h2]
    rw [if_pos hrange]

/-- Witness for C8: a parenthesis-free input hits `RgbInvalidFormat` and a
non-numeric first piece hits `RgbComponentParseError` with that piece. -/
theorem rgb_error_taxonomy_C8_witness :
    parse_rgb ['r', 'g', 'b'] = .error .RgbInvalidFormat ∧
    parse_rgb ['r', 'g', 'b', '(', 'x', ',', '0', ',', '0', ')'] =
      .error (.RgbComponentParseError ['x']) := by
  constructor
  · exact rgb_error_taxonomy_C8.1 ['r', 'g', 'b'] (by decide)
  · exact (rgb_error_taxonomy_C8.2.2.2.2.1
      ['r', 'g', 'b', '(', 'x', ',', '0', ',', '0', ')'] 3 9 ['x'] ['0'] ['0']
      (by decide) (by decide) (by omega) (by decide)).1 (by decide)

/-! ### Assembled rgb inputs (claim C4) -/

lemma firstIdxOf_rgbParen (rest : List Char) :
    firstIdxOf '(' ('r' :: 'g' :: 'b' :: '(' :: rest) = some 3 := by
  simp +decide [firstIdxOf]

lemma lastIdxOf_append_self (a : Char) (l : List Char) :
    lastIdxOf a (l ++ [a]) = some l.length := by
  unfold lastIdxOf
  have h1 : (l ++ [a]).reverse = a :: l.reverse := by simp
  rw [h1]
  have h2 : firstIdxOf a (a :: l.reverse) = some 0 := by simp [firstIdxOf]
  rw [h2]
  simp

lemma no_comma_piece {w1 p w2 : List Char} (hw1 : allWs w1) (hw2 : allWs w2)
    (hp : allDigits p) : ',' ∉ w1 ++ p ++ w2 := by
  intro hmem
  simp only [List.append_assoc, List.mem_append] at hmem
  rcases hmem with h | h | h
  · exact (isWs_ne_delims (hw1 _ h)).2.2 rfl
  · obtain ⟨d, hd⟩ := Option.isSome_iff_exists.mp (hp _ h)
    exact decVal_ne_comma hd rfl
  · exact (isWs_ne_delims (hw2 _ h)).2.2 rfl

lemma dropWhile_no_ws {l : List Char} (h : ∀ c ∈ l, isWs c = false) :
    l.dropWhile (fun c => isWs c) = l := by
  cases l with
  | nil => rfl
  | cons c cs => simp [List.dropWhile_cons, h c (by simp)]

lemma trim_ws_digits {w1 w2 p : List Char} (hw1 : allWs w1) (hw2 : allWs w2)
    (hne : p ≠ []) (hp : allDigits p) : trim (w1 ++ p ++ w2) = p := by
  have hnows : ∀ c ∈ p, isWs c = false := fun c hc => by
    obtain ⟨d, hd⟩ := Option.isSome_iff_exists.mp (hp c hc)
    exact decVal_notWs hd
  unfold trim
  rw [show w1 ++ p ++ w2 = w1 ++ (p ++ w2) by simp, trimLeft_ws_append hw1]
  have h1 : trimLeft (p ++ w2) = p ++ w2 := by
    unfold trimLeft
    cases p with
    | nil => exact absurd rfl hne
    | cons a m => simp [List.dropWhile_cons, hnows a (by simp)]
  rw [h1, trimRight_append_ws hw2]
  unfold trimRight
  rw [dropWhile_no_ws (fun c hc => hnows c (List.mem_reverse.mp hc))]
  exact List.reverse_reverse p

lemma asciiLower_rgbParen (rest : List Char) :
    asciiLower ('r' :: 'g' :: 'b' :: '(' :: rest) =
      'r' :: 'g' :: 'b' :: '(' :: asciiLower rest := by
  have h1 : asciiLowerChar 'r' = 'r' := by decide
  have h2 : asciiLowerChar 'g' = 'g' := by decide
  have h3 : asciiLowerChar 'b' = 'b' := by decide
  have h4 : asciiLowerChar '(' = '(' := by decide
  simp [asciiLower, h1, h2, h3, h4]

/-- Claim C4 counterexample: inserting a space between `rgb` and `(` — a
position "around parens" — changes the outcome from success to
`MissingHashPrefix`, so whitespace-insensitivity does not hold at every
position around parens. -/
theorem rgb_whitespace_C4_counterexample :
    parse_color
      ['r', 'g', 'b', ' ', '(', '2', '5', '5', ',', ' ', '1', '7', '0', ',', ' ', '0', ')'] =
      .err .MissingHash ∧
    parse_color
      ['r', 'g', 'b', '(', '2', '5', '5', ',', ' ', '1', '7', '0', ',', ' ', '0', ')'] =
      .ok ⟨255, 170, 0⟩ := by
  constructor <;> decide

/-- Claim C4 (amended): for every rgb() input whose three components are
digit strings with values in [0,255], parsing succeeds with channels
assigned in source order, and the outcome is unchanged by arbitrary
whitespace after `(`, around each component and comma, before `)`, and at
the ends of the input; whitespace between `rgb` and `(` is not tolerated
(it falls through to `MissingHashPrefix`). -/
theorem rgb_whitespace_C4 (w0 w1 w2 w3 w4 w5 w6 w7 p0 p1 p2 : List Char)
    (hw0 : allWs w0) (hw1 : allWs w1) (hw2 : allWs w2) (hw3 : allWs w3)
    (hw4 : allWs w4) (hw5 : allWs w5) (hw6 : allWs w6) (hw7 : allWs w7)
    (hn0 : p0 ≠ []) (hn1 : p1 ≠ []) (hn2 : p2 ≠ [])
    (hd0 : allDigits p0) (hd1 : allDigits p1) (hd2 : allDigits p2)
    (hv0 : natValD p0 ≤ 255) (hv1 : natValD p1 ≤ 255) (hv2 : natValD p2 ≤ 255) :
    parse_color (w0 ++ ('r' :: 'g' :: 'b' :: '(' ::
        (((w1 ++ p0 ++ w2) ++ ',' :: ((w3 ++ p1 ++ w4) ++ ',' :: (w5 ++ p2 ++ w6)))
          ++ [')'])) ++ w7) =
      .ok ⟨natValD p0, natValD p1, natValD p2⟩ := by
  have htrim : trim (w0 ++ ('r' :: 'g' :: 'b' :: '(' ::
      (((w1 ++ p0 ++ w2) ++ ',' :: ((w3 ++ p1 ++ w4) ++ ',' :: (w5 ++ p2 ++ w6)))
        ++ [')'])) ++ w7) =
      'r' :: 'g' :: 'b' :: '(' ::
        (((w1 ++ p0 ++ w2) ++ ',' :: ((w3 ++ p1 ++ w4) ++ ',' :: (w5 ++ p2 ++ w6)))
          ++ [')']) := by
    have h := trim_sandwich hw0 hw7 (a := 'r') (by decide)
      (m := 'g' :: 'b' :: '(' ::
        ((w1 ++ p0 ++ w2) ++ ',' :: ((w3 ++ p1 ++ w4) ++ ',' :: (w5 ++ p2 ++ w6))))
      (b := ')') (by decide)
    simpa using h
  rw [parse_color_rgb_branch
    (by rw [htrim]; exact parse_named_of_lower_rgb (asciiLower_rgbParen _))
    (by rw [htrim]; exact stripHash_of_ne (by decide) _)
    (by
      rw [htrim, asciiLower_rgbParen]
      simp [startsWithL]), htrim]
  have hlast : lastIdxOf ')' ('r' :: 'g' :: 'b' :: '(' ::
      (((w1 ++ p0 ++ w2) ++ ',' :: ((w3 ++ p1 ++ w4) ++ ',' :: (w5 ++ p2 ++ w6)))
        ++ [')'])) =
      some (((w1 ++ p0 ++ w2) ++ ',' :: ((w3 ++ p1 ++ w4) ++ ',' :: (w5 ++ p2 ++ w6))).length
        + 4) := by
    have h := lastIdxOf_append_self ')' ('r' :: 'g' :: 'b' :: '(' ::
      ((w1 ++ p0 ++ w2) ++ ',' :: ((w3 ++ p1 ++ w4) ++ ',' :: (w5 ++ p2 ++ w6))))
    rw [show ('r' :: 'g' :: 'b' :: '(' ::
        ((w1 ++ p0 ++ w2) ++ ',' :: ((w3 ++ p1 ++ w4) ++ ',' :: (w5 ++ p2 ++ w6)))) ++ [')'] =
      'r' :: 'g' :: 'b' :: '(' ::
        (((w1 ++ p0 ++ w2) ++ ',' :: ((w3 ++ p1 ++ w4) ++ ',' :: (w5 ++ p2 ++ w6)))
          ++ [')']) from by simp] at h
    rw [h]
    congr 1
  rw [parse_rgb_eval (firstIdxOf_rgbParen _) hlast (by
    have := List.length_append (w1 ++ p0 ++ w2)
      (',' :: ((w3 ++ p1 ++ w4) ++ ',' :: (w5 ++ p2 ++ w6)))
    simp only [List.length_cons] at this ⊢
    omega)]
  have hint : ((('r' :: 'g' :: 'b' :: '(' ::
      (((w1 ++ p0 ++ w2) ++ ',' :: ((w3 ++ p1 ++ w4) ++ ',' :: (w5 ++ p2 ++ w6)))
        ++ [')'])).take
      (((w1 ++ p0 ++ w2) ++ ',' :: ((w3 ++ p1 ++ w4) ++ ',' :: (w5 ++ p2 ++ w6))).length
        + 4)).drop (3 + 1)) =
      (w1 ++ p0 ++ w2) ++ ',' :: ((w3 ++ p1 ++ w4) ++ ',' :: (w5 ++ p2 ++ w6)) := by
    rw [show ('r' :: 'g' :: 'b' :: '(' ::
        (((w1 ++ p0 ++ w2) ++ ',' :: ((w3 ++ p1 ++ w4) ++ ',' :: (w5 ++ p2 ++ w6)))
          ++ [')'])) =
      ('r' :: 'g' :: 'b' :: '(' ::
        ((w1 ++ p0 ++ w2) ++ ',' :: ((w3 ++ p1 ++ w4) ++ ',' :: (w5 ++ p2 ++ w6)))) ++ [')']
      from by simp]
    rw [List.take_left' (by simp)]
    show ((['r', 'g', 'b', '('] ++
      ((w1 ++ p0 ++ w2) ++ ',' :: ((w3 ++ p1 ++ w4) ++ ',' :: (w5 ++ p2 ++ w6)))).drop 4) = _
    exact List.drop_left' rfl
  rw [hint]
  rw [splitComma_append (no_comma_piece hw1 hw2 hd0),
    splitComma_append (no_comma_piece hw3 hw4 hd1),
    splitComma_no_comma (no_comma_piece hw5 hw6 hd2)]
  rw [show ([w1 ++ p0 ++ w2, w3 ++ p1 ++ w4, w5 ++ p2 ++ w6].map trim) =
    [trim (w1 ++ p0 ++ w2), trim (w3 ++ p1 ++ w4), trim (w5 ++ p2 ++ w6)] from by simp]
  rw [trim_ws_digits hw1 hw2 hn0 hd0, trim_ws_digits hw3 hw4 hn1 hd1,
    trim_ws_digits hw5 hw6 hn2 hd2, rgbFromParts_three,
    parseI32_digits hn0 hd0 (by omega)]
  simp only []
  rw [if_neg (by push_cast; omega), parseI32_digits hn1 hd1 (by omega)]
  simp only []
  rw [if_neg (by push_cast; omega), parseI32_digits hn2 hd2 (by omega)]
  simp only []
  rw [if_neg (by push_cast; omega)]
  simp [exceptToOutcome]

/-- Witness for C4: `" rgb( 26 , 43 , 60 ) "` parses to (26,43,60). -/
theorem rgb_whitespace_C4_witness :
    parse_color [' ', 'r', 'g', 'b', '(', ' ', '2', '6', ' ', ',', ' ', '4', '3', ' ',
      ',', ' ', '6', '0', ' ', ')', ' '] = .ok ⟨26, 43, 60⟩ := by
  have h := rgb_whitespace_C4 [' '] [' '] [' '] [' '] [' '] [' '] [' '] [' ']
    ['2', '6'] ['4', '3'] ['6', '0']
    (by decide) (by decide) (by decide) (by decide) (by decide) (by decide)
    (by decide) (by decide) (by decide) (by decide) (by decide)
    (by decide) (by decide) (by decide) (by decide) (by decide) (by decide)
  simpa using h

/-! ### Grammar conformance of successful parses (claim C5) -/

lemma asciiLower_eq_cons {t : List Char} {a : Char} {rest : List Char}
    (h : asciiLower t = a :: rest) :
    ∃ c t', t = c :: t' ∧ asciiLowerChar c = a ∧ asciiLower t' = rest := by
  cases t with
  | nil => simp [asciiLower] at h
  | cons c t' =>
    rw [asciiLower_cons] at h
    exact ⟨c, t', rfl, (List.cons.inj h).1, (List.cons.inj h).2⟩

lemma ne_hash_of_lower_r {c : Char} (h : asciiLowerChar c = 'r') : c ≠ '#' := by
  intro he
  subst he
  rw [show asciiLowerChar '#' = '#' from by decide] at h
  exact absurd h (by decide)

lemma exceptToOutcome_ok {e : Except ColorParseError Color} {col : Color}
    (h : exceptToOutcome e = .ok col) : e = .ok col := by
  cases e with
  | error e' => simp [exceptToOutcome] at h
  | ok c => simpa [exceptToOutcome] using h

lemma rgbFromParts_ok_shape {p0 p1 p2 : List Char} {col : Color}
    (h : rgbFromParts [p0, p1, p2] = .ok col) :
    isSignedDigits p0 = true ∧ isSignedDigits p1 = true ∧
      isSignedDigits p2 = true := by
  rw [rgbFromParts_three] at h
  cases h0 : parseI32 p0 with
  | none =>
    simp only [h0] at h
    exact Except.noConfusion h
  | some v0 =>
    simp only [h0] at h
    by_cases hr0 : v0 < 0 ∨ 255 < v0
    · rw [if_pos hr0] at h
      exact Except.noConfusion h
    · rw [if_neg hr0] at h
      cases h1 : parseI32 p1 with
      | none =>
        simp only [h1] at h
        exact Except.noConfusion h
      | some v1 =>
        simp only [h1] at h
        by_cases hr1 : v1 < 0 ∨ 255 < v1
        · rw [if_pos hr1] at h
          exact Except.noConfusion h
        · rw [if_neg hr1] at h
          cases h2 : parseI32 p2 with
          | none =>
            simp only [h2] at h
            exact Except.noConfusion h
          | some v2 =>
            exact ⟨parseI32_shape h0, parseI32_shape h1, parseI32_shape h2⟩

/-- Claim C5 counterexample: `"rgb(1,2,3)x"` (already trimmed) parses
successfully although its final character is `'x'`, not the closing `)` —
the grammar of section 6 is not sound for `parse_color` successes. -/
theorem grammar_conformance_C5_counterexample :
    parse_color ['r', 'g', 'b', '(', '1', ',', '2', ',', '3', ')', 'x'] =
      .ok ⟨1, 2, 3⟩ ∧
    trim ['r', 'g', 'b', '(', '1', ',', '2', ',', '3', ')', 'x'] =
      ['r', 'g', 'b', '(', '1', ',', '2', ',', '3', ')', 'x'] ∧
    List.getLast? ['r', 'g', 'b', '(', '1', ',', '2', ',', '3', ')', 'x'] =
      some 'x' := by
  refine ⟨by decide, by decide, by decide⟩

/-- Claim C5 (amended): every successful rgb-branch parse has, between the
first `(` and the *last* `)` of the trimmed input, exactly three
comma-separated pieces whose trims are an optional `+`/`-` sign followed
by one or more decimal digits; characters are allowed after the last `)`
(the `)` need not be final); and the hsl branch accepts the host float
syntax, e.g. the exponent form `"hsl(1e1, 100%, 50%)"` succeeds. -/
theorem grammar_conformance_C5 :
    (∀ (s : List Char) (col : Color),
      parse_color s = .ok col →
      startsWithL ['r', 'g', 'b', '('] (asciiLower (trim s)) = true →
      ∃ o cl p0 p1 p2,
        firstIdxOf '(' (trim s) = some o ∧ lastIdxOf ')' (trim s) = some cl ∧
        o + 1 < cl ∧
        (splitComma (((trim s).take cl).drop (o + 1))).map trim = [p0, p1, p2] ∧
        isSignedDigits p0 = true ∧ isSignedDigits p1 = true ∧
          isSignedDigits p2 = true) ∧
    isOk (parse_color ['h', 's', 'l', '(', '1', 'e', '1', ',', ' ', '1', '0', '0',
      '%', ',', ' ', '5', '0', '%', ')']) = true := by
  refine ⟨?_, by decide⟩
  intro s col hok hpre
  obtain ⟨rest, hrest⟩ := startsWithL_four_eq hpre
  obtain ⟨c0, t1, ht1, hc0, -⟩ := asciiLower_eq_cons hrest
  have hdisp : parse_color s = exceptToOutcome (parse_rgb (trim s)) :=
    parse_color_rgb_branch (parse_named_of_lower_rgb hrest)
      (by rw [ht1]; exact stripHash_of_ne (ne_hash_of_lower_r hc0) _) hpre
  rw [hdisp] at hok
  have hrgb := exceptToOutcome_ok hok
  cases ho : firstIdxOf '(' (trim s) with
  | none =>
    rw [parse_rgb_none_open ho] at hrgb
    exact Except.noConfusion hrgb
  | some o =>
    cases hcl : lastIdxOf ')' (trim s) with
    | none =>
      rw [parse_rgb_none_close ho hcl] at hrgb
      exact Except.noConfusion hrgb
    | some cl =>
      by_cases hdeg : cl ≤ o + 1
      · rw [parse_rgb_degenerate ho hcl hdeg] at hrgb
        exact Except.noConfusion hrgb
      · have hgt : o + 1 < cl := by omega
        rw [parse_rgb_eval ho hcl hgt] at hrgb
        rcases hm : (splitComma (((trim s).take cl).drop (o + 1))).map trim with
          _ | ⟨p0, _ | ⟨p1, _ | ⟨p2, _ | ⟨p3, ps⟩⟩⟩⟩
        · rw [hm, rgbFromParts_not_three (by simp)] at hrgb
          exact Except.noConfusion hrgb
        · rw [hm, rgbFromParts_not_three (by simp)] at hrgb
          exact Except.noConfusion hrgb
        · rw [hm, rgbFromParts_not_three (by simp)] at hrgb
          exact Except.noConfusion hrgb
        · rw [hm] at hrgb
          obtain ⟨s0, s1, s2⟩ := rgbFromParts_ok_shape hrgb
          exact ⟨o, cl, p0, p1, p2, rfl, rfl, hgt, hm, s0, s1, s2⟩
        · rw [hm, rgbFromParts_not_three (by simp)] at hrgb
          exact Except.noConfusion hrgb

/-- Witness for C5: the rgb soundness part applied at the concrete input
`"rgb(4, +5,6)z"`, which parses despite the trailing `z`. -/
theorem grammar_conformance_C5_witness :
    ∃ o cl p0 p1 p2,
      firstIdxOf '(' (trim ['r', 'g', 'b', '(', '4', ',', ' ', '+', '5', ',', '6',
        ')', 'z']) = some o ∧
      lastIdxOf ')' (trim ['r', 'g', 'b', '(', '4', ',', ' ', '+', '5', ',', '6',
        ')', 'z']) = some cl ∧
      o + 1 < cl ∧
      (splitComma (((trim ['r', 'g', 'b', '(', '4', ',', ' ', '+', '5', ',', '6',
        ')', 'z']).take cl).drop (o + 1))).map trim = [p0, p1, p2] ∧
      isSignedDigits p0 = true ∧ isSignedDigits p1 = true ∧
        isSignedDigits p2 = true :=
  grammar_conformance_C5.1
    ['r', 'g', 'b', '(', '4', ',', ' ', '+', '5', ',', '6', ')', 'z'] ⟨4, 5, 6⟩
    (by decide) (by decide)

end RcpPalette
